import Mathlib

/-!
Verification of the reward-distribution algorithm of
`scripts/test-rewards/calculate-rewards.py` (class `RewardsCalculator`).

Embedding conventions:
* Python `Decimal` values are modelled as exact rationals (`ℚ`); the source
  computes with arbitrary-precision decimal arithmetic, and every claim below
  is stated before the final 2-decimal rounding or about exactly representable
  quantities.
* Python exceptions are modelled with `Except CalcError`: the explicit
  `ValueError` raised for an unknown vessel token, the `KeyError` raised by the
  duration-multiplier lookup, and the `decimal` division errors raised on a
  zero divisor (`DivisionByZero` / `InvalidOperation`), collapsed into one
  `divisionByZero` kind.
* Python dicts keyed by denom / user id become total functions defaulting to
  `0` (matching `defaultdict(Decimal)`); the lists of `(key, value)` increments
  that feed them are kept explicit so that "which entries were produced" is
  still observable.
-/

/-- A vessel: a user's locked token position, `calculate-rewards.py` scenario
field for field.  `locked_amount` is the exact decimal the source wraps in
`Decimal(...)`. -/
structure Vessel where
  id : ℤ
  lock_duration_rounds : ℤ
  locked_denom : String
  locked_amount : ℚ
  controlled_by : String
  voted_proposal_id : Option ℤ
deriving DecidableEq

/-- A user: `user_id` plus owned vessels. -/
structure User where
  user_id : String
  vessels : List Vessel
deriving DecidableEq

/-- A tribute attached to a proposal. -/
structure Tribute where
  id : ℤ
  denom : String
  amount : ℚ
deriving DecidableEq

/-- A proposal with its minimum delegated-eligibility duration and tributes. -/
structure Proposal where
  id : ℤ
  bid_duration_months : ℤ
  tributes : List Tribute
deriving DecidableEq

/-- The two commission rates, in basis points. -/
structure ProtocolConfig where
  protocol_commission_bps : ℤ
  hydromancer_commission_bps : ℤ
deriving DecidableEq

/-- A whole scenario: the immutable input of `calculate_all_rewards`. -/
structure Scenario where
  protocol_config : ProtocolConfig
  users : List User
  proposals : List Proposal
deriving DecidableEq

/-- Errors the Python computation can abort with: the explicit `ValueError`
for an invalid vessel token, the `KeyError` of the duration-multiplier lookup,
and the `decimal` module's error on division with a zero divisor. -/
inductive CalcError where
  | invalidToken (denom : String)
  | invalidDuration (rounds : ℤ)
  | divisionByZero
deriving DecidableEq

/-- `self.token_multipliers` (lines 9-12): dATOM ↦ 1.3, stATOM ↦ 1.6,
anything else absent. -/
def token_multipliers (denom : String) : Option ℚ :=
  if denom = "dATOM" then some (1.3 : ℚ)
  else if denom = "stATOM" then some (1.6 : ℚ)
  else none

/-- `self.duration_multipliers` (lines 15-19): 1 ↦ 1.0, 2 ↦ 1.25, 3 ↦ 1.5. -/
def duration_multipliers (rounds : ℤ) : Option ℚ :=
  if rounds = 1 then some (1.0 : ℚ)
  else if rounds = 2 then some (1.25 : ℚ)
  else if rounds = 3 then some (1.5 : ℚ)
  else none

/-- `calculate_voting_power` (lines 24-41): `amount * token_multiplier *
duration_multiplier`, raising for a token outside the table and for a duration
outside the table. -/
def calculate_voting_power (v : Vessel) : Except CalcError ℚ :=
  match token_multipliers v.locked_denom with
  | none => .error (.invalidToken v.locked_denom)
  | some tm =>
    match duration_multipliers v.lock_duration_rounds with
    | none => .error (.invalidDuration v.lock_duration_rounds)
    | some dm => .ok (v.locked_amount * tm * dm)

/-- A vessel annotated with its owning user's id, as built by
`get_vessels_by_proposal` (`vessel_with_user`). -/
structure VotedVessel where
  vessel : Vessel
  user_id : String
deriving DecidableEq

/-- All vessels that cast a vote, each tagged with its owner, in the
users-then-vessels traversal order of `get_vessels_by_proposal`
(lines 43-54). -/
def votedVessels (s : Scenario) : List VotedVessel :=
  s.users.flatMap fun u =>
    u.vessels.filterMap fun v =>
      if v.voted_proposal_id.isSome then some ⟨v, u.user_id⟩ else none

/-- `vessels_by_proposal[pid]`: the voted vessels grouped under proposal id
`pid` (empty list ⟺ `pid` is not a key of the defaultdict). -/
def votedVesselsFor (s : Scenario) (pid : ℤ) : List VotedVessel :=
  (votedVessels s).filter fun vv => vv.vessel.voted_proposal_id == some pid

/-- Auxiliary first-occurrence deduplication, preserving Python dict key
insertion order. -/
def firstDedup : List ℤ → List ℤ → List ℤ
  | _, [] => []
  | seen, pid :: rest =>
    if pid ∈ seen then firstDedup seen rest
    else pid :: firstDedup (pid :: seen) rest

/-- The keys of `vessels_by_proposal`, i.e. the active proposal ids, in first
insertion order. -/
def activePids (s : Scenario) : List ℤ :=
  firstDedup [] ((votedVessels s).filterMap fun vv => vv.vessel.voted_proposal_id)

theorem mem_firstDedup (x : ℤ) : ∀ (seen l : List ℤ),
    x ∈ firstDedup seen l ↔ x ∈ l ∧ x ∉ seen := by
  intro seen l
  induction l generalizing seen with
  | nil => simp [firstDedup]
  | cons pid rest ih =>
    by_cases hp : pid ∈ seen
    · simp only [firstDedup, if_pos hp, ih]
      constructor
      · rintro ⟨h1, h2⟩
        exact ⟨List.mem_cons_of_mem _ h1, h2⟩
      · rintro ⟨h1, h2⟩
        rcases List.mem_cons.mp h1 with h | h
        · exact absurd (h ▸ hp) h2
        · exact ⟨h, h2⟩
    · simp only [firstDedup, if_neg hp, List.mem_cons, ih]
      by_cases hxp : x = pid
      · subst hxp
        simp [hp]
      · simp [hxp]

theorem mem_activePids (s : Scenario) (pid : ℤ) :
    pid ∈ activePids s ↔ ∃ vv ∈ votedVessels s, vv.vessel.voted_proposal_id = some pid := by
  simp [activePids, mem_firstDedup, List.mem_filterMap]

/-- Python `Decimal` division: raises on a zero divisor (`DivisionByZero`, or
`InvalidOperation` for `0/0`), otherwise exact rational division here. -/
def safeDiv (a b : ℚ) : Except CalcError ℚ :=
  if b = 0 then .error .divisionByZero else .ok (a / b)

/-- Accumulating sum of vessel voting powers, left to right, propagating the
first error, as the `for vessel in vessels: power += ...` loops do. -/
def sumPowersE : List Vessel → ℚ → Except CalcError ℚ
  | [], acc => .ok acc
  | v :: rest, acc =>
    match calculate_voting_power v with
    | .error e => .error e
    | .ok p => sumPowersE rest (acc + p)

/-- Effectful `List.map` over `Except`, used to mirror loops that build a list
of results and abort on the first raised exception. -/
def mapME {α β : Type} (f : α → Except CalcError β) : List α → Except CalcError (List β)
  | [] => .ok []
  | a :: l =>
    match f a with
    | .error e => .error e
    | .ok b =>
      match mapME f l with
      | .error e => .error e
      | .ok bs => .ok (b :: bs)

/-- Effectful flat-map over `Except`. -/
def flatMapME {α β : Type} (f : α → Except CalcError (List β)) (l : List α) :
    Except CalcError (List β) :=
  (mapME f l).map List.flatten

/-- Builds a Python dict `pid ↦ value` (as a total function defaulting to the
base map) by iterating over `pids` and computing each value, aborting on the
first error.  Mirrors the dict-building loops of
`calculate_hydromancer_voting_power_by_proposal` and
`calculate_total_voting_power_by_proposal`. -/
def buildPowerMap (f : ℤ → Except CalcError ℚ) : List ℤ → (ℤ → ℚ) → Except CalcError (ℤ → ℚ)
  | [], m => .ok m
  | pid :: rest, m =>
    match f pid with
    | .error e => .error e
    | .ok tp => buildPowerMap f rest (fun q => if q = pid then tp else m q)

/-- defaultdict accumulation keyed by denom: the final value at `d` is the sum
of the increments recorded for `d`. -/
def accumulateDenom (entries : List (String × ℚ)) (d : String) : ℚ :=
  ((entries.filter fun e => e.1 == d).map fun e => e.2).sum

/-- defaultdict-of-defaultdict accumulation keyed by user id then denom. -/
def accumulateUser (entries : List (String × String × ℚ)) (uid d : String) : ℚ :=
  ((entries.filter fun e => e.1 == uid && e.2.1 == d).map fun e => e.2.2).sum

/-- `protocol_commission_bps / 10000` (line 58). -/
def protocolRate (s : Scenario) : ℚ :=
  (s.protocol_config.protocol_commission_bps : ℚ) / 10000

/-- `hydromancer_commission_bps / 10000` (line 104). -/
def hydroRate (s : Scenario) : ℚ :=
  (s.protocol_config.hydromancer_commission_bps : ℚ) / 10000

/-- The vessels of a voted group controlled by the hydromancer. -/
def hydroControlled (l : List VotedVessel) : List VotedVessel :=
  l.filter fun vv => vv.vessel.controlled_by == "hydromancer"

/-- The vessels of a voted group controlled by their user. -/
def userControlled (l : List VotedVessel) : List VotedVessel :=
  l.filter fun vv => vv.vessel.controlled_by == "user"

/-- `calculate_hydromancer_voting_power_by_proposal` (lines 75-87): for each
active proposal id, the summed power of its hydromancer-controlled voters. -/
def calculate_hydromancer_voting_power_by_proposal (s : Scenario) :
    Except CalcError (ℤ → ℚ) :=
  buildPowerMap
    (fun pid => sumPowersE ((hydroControlled (votedVesselsFor s pid)).map fun vv => vv.vessel) 0)
    (activePids s) (fun _ => 0)

/-- `calculate_total_voting_power_by_proposal` (lines 89-100): for each active
proposal id, the summed power of all its voters. -/
def calculate_total_voting_power_by_proposal (s : Scenario) :
    Except CalcError (ℤ → ℚ) :=
  buildPowerMap
    (fun pid => sumPowersE ((votedVesselsFor s pid).map fun vv => vv.vessel) 0)
    (activePids s) (fun _ => 0)

/-- The `for tribute in proposal["tributes"]` body of
`calculate_protocol_rewards` (lines 66-71), guarded by proposal activity:
increments `(denom, amount * protocol_commission_rate)`. -/
def protocolEntriesForProposal (s : Scenario) (p : Proposal) : List (String × ℚ) :=
  if (votedVesselsFor s p.id).isEmpty then []
  else p.tributes.map fun t => (t.denom, t.amount * protocolRate s)

/-- `calculate_protocol_rewards` (lines 56-73).  No power is ever computed, so
this function is total. -/
def calculate_protocol_rewards (s : Scenario) : String → ℚ :=
  accumulateDenom (s.proposals.flatMap (protocolEntriesForProposal s))

/-- The per-proposal body of `calculate_hydromancer_rewards` (lines 111-131):
if the proposal is active with positive hydromancer power, each tribute adds
`(amount * (1 - protocolRate)) * hydroShare * hydroRate` to its denom. -/
def hydroEntriesForProposal (s : Scenario) (hmap tmap : ℤ → ℚ) (p : Proposal) :
    Except CalcError (List (String × ℚ)) :=
  if ¬ (votedVesselsFor s p.id).isEmpty ∧ 0 < hmap p.id then do
    let share ← safeDiv (hmap p.id) (tmap p.id)
    .ok (p.tributes.map fun t =>
      (t.denom, t.amount * (1 - protocolRate s) * share * hydroRate s))
  else .ok []

/-- `calculate_hydromancer_rewards` (lines 102-133). -/
def calculate_hydromancer_rewards (s : Scenario) : Except CalcError (String → ℚ) := do
  let hmap ← calculate_hydromancer_voting_power_by_proposal s
  let tmap ← calculate_total_voting_power_by_proposal s
  let entries ← flatMapME (hydroEntriesForProposal s hmap tmap) s.proposals
  .ok (accumulateDenom entries)

/-- The per-proposal body of `calculate_user_direct_rewards` (lines 143-163):
each user-controlled voter gets, for every tribute,
`(amount * (1 - protocolRate)) * (vesselPower / totalPower)`, credited to its
owner.  The division is unguarded in the source. -/
def directEntriesForProposal (s : Scenario) (tmap : ℤ → ℚ) (p : Proposal) :
    Except CalcError (List (String × String × ℚ)) :=
  if (votedVesselsFor s p.id).isEmpty then .ok []
  else
    flatMapME (fun vv => do
        let vp ← calculate_voting_power vv.vessel
        let share ← safeDiv vp (tmap p.id)
        .ok (p.tributes.map fun t =>
          (vv.user_id, t.denom, t.amount * (1 - protocolRate s) * share)))
      (userControlled (votedVesselsFor s p.id))

/-- `calculate_user_direct_rewards` (lines 135-165). -/
def calculate_user_direct_rewards (s : Scenario) :
    Except CalcError (String → String → ℚ) := do
  let tmap ← calculate_total_voting_power_by_proposal s
  let entries ← flatMapME (directEntriesForProposal s tmap) s.proposals
  .ok (accumulateUser entries)

/-- A user's hydromancer-controlled vessels (`user_vessels_by_duration`,
lines 175-181, flattened: the duration grouping only reorders vessels and
never changes any sum). -/
def hydroVesselsOfUser (u : User) : List Vessel :=
  u.vessels.filter fun v => v.controlled_by == "hydromancer"

/-- A user's hydromancer-controlled vessels meeting a proposal's duration
threshold (`duration >= proposal_duration`, line 219). -/
def eligVessels (u : User) (bid : ℤ) : List Vessel :=
  (hydroVesselsOfUser u).filter fun v => bid ≤ v.lock_duration_rounds

/-- `user_power` of lines 216-221: summed power of a user's qualifying
hydromancer-controlled vessels, voting or not. -/
def eligPowerE (u : User) (bid : ℤ) : Except CalcError ℚ :=
  sumPowersE (eligVessels u bid) 0

/-- The per-proposal body of `calculate_user_delegated_rewards`
(lines 184-242): skip if no vessel, or no hydromancer vessel, voted here;
otherwise compute the hydromancer share (unguarded division), the eligible
user powers, and — only when the total eligible power is positive — one
increment per tribute per eligible user. -/
def delegatedEntriesForProposal (s : Scenario) (p : Proposal) :
    Except CalcError (List (String × String × ℚ)) :=
  if (votedVesselsFor s p.id).isEmpty then .ok []
  else if (hydroControlled (votedVesselsFor s p.id)).isEmpty then .ok []
  else do
    let hp ← sumPowersE ((hydroControlled (votedVesselsFor s p.id)).map fun vv => vv.vessel) 0
    let tmap ← calculate_total_voting_power_by_proposal s
    let share ← safeDiv hp (tmap p.id)
    let eligs ← mapME (fun u => do
        let ep ← eligPowerE u p.bid_duration_months
        .ok (u.user_id, ep)) s.users
    if 0 < (((eligs.filter fun e => decide (0 < e.2)).map fun e => e.2).sum) then
      .ok (p.tributes.flatMap fun t =>
        (eligs.filter fun e => decide (0 < e.2)).map fun e =>
          (e.1, t.denom,
            t.amount * (1 - protocolRate s) * share * (1 - hydroRate s) *
              (e.2 / ((eligs.filter fun e => decide (0 < e.2)).map fun e => e.2).sum)))
    else .ok []

/-- `calculate_user_delegated_rewards` (lines 167-244). -/
def calculate_user_delegated_rewards (s : Scenario) :
    Except CalcError (String → String → ℚ) := do
  let entries ← flatMapME (delegatedEntriesForProposal s) s.proposals
  .ok (accumulateUser entries)

/-- `Decimal.quantize(Decimal('0.01'), rounding=ROUND_HALF_UP)` (lines
278-288): rounding to 2 decimal places, ties and negatives away from zero. -/
def quantize2 (q : ℚ) : ℚ :=
  if 0 ≤ q then (⌊q * 100 + 1 / 2⌋ : ℚ) / 100
  else -((⌊-q * 100 + 1 / 2⌋ : ℚ) / 100)

/-- The shape of the final result of `calculate_all_rewards`: three reward
maps, every value already quantized to 2 decimals (string rendering of the
decimals is outside the embedding). -/
structure RewardsResult where
  protocol_rewards : String → ℚ
  hydromancer_rewards : String → ℚ
  user_rewards : String → String → ℚ

/-- `calculate_all_rewards` (lines 246-292): protocol, hydromancer, direct and
delegated rewards in that order, user rewards merged direct + delegated per
denom, then every value quantized. -/
def calculate_all_rewards (s : Scenario) : Except CalcError RewardsResult := do
  let proto := calculate_protocol_rewards s
  let hydro ← calculate_hydromancer_rewards s
  let direct ← calculate_user_direct_rewards s
  let deleg ← calculate_user_delegated_rewards s
  .ok { protocol_rewards := fun d => quantize2 (proto d)
        hydromancer_rewards := fun d => quantize2 (hydro d)
        user_rewards := fun uid d => quantize2 (direct uid d + deleg uid d) }

/-- Projection of one protocol reward value from the final result. -/
def protoRewardAt (s : Scenario) (d : String) : Except CalcError ℚ :=
  (calculate_all_rewards s).map fun r => r.protocol_rewards d

/-- Projection of one hydromancer reward value from the final result. -/
def hydroRewardAt (s : Scenario) (d : String) : Except CalcError ℚ :=
  (calculate_all_rewards s).map fun r => r.hydromancer_rewards d

/-- Projection of one user reward value from the final result. -/
def userRewardAt (s : Scenario) (uid d : String) : Except CalcError ℚ :=
  (calculate_all_rewards s).map fun r => r.user_rewards uid d

/-- The sample scenario embedded at the bottom of `calculate-rewards.py`
(lines 311-357). -/
def sampleScenario : Scenario :=
  { protocol_config := { protocol_commission_bps := 1000, hydromancer_commission_bps := 500 }
    users :=
      [ { user_id := "A"
          vessels :=
            [ { id := 1, lock_duration_rounds := 2, locked_denom := "dATOM"
                locked_amount := 100, controlled_by := "hydromancer"
                voted_proposal_id := some 1 }
            , { id := 2, lock_duration_rounds := 1, locked_denom := "stATOM"
                locked_amount := 50, controlled_by := "user"
                voted_proposal_id := some 1 } ] } ]
    proposals :=
      [ { id := 1, bid_duration_months := 1
          tributes :=
            [ { id := 1, denom := "dATOM", amount := 1000 }
            , { id := 2, denom := "USDC", amount := 500 } ] } ] }

/-- A vessel passes both multiplier lookups of `calculate_voting_power`. -/
def validVessel (v : Vessel) : Prop :=
  (token_multipliers v.locked_denom).isSome ∧
    (duration_multipliers v.lock_duration_rounds).isSome

instance (v : Vessel) : Decidable (validVessel v) := by
  unfold validVessel
  infer_instance

/-- The value `calculate_voting_power` returns on a valid vessel, as a total
function (`0` multipliers outside the tables, never used under validity). -/
def powerQ (v : Vessel) : ℚ :=
  v.locked_amount * (token_multipliers v.locked_denom).getD 0 *
    (duration_multipliers v.lock_duration_rounds).getD 0

/-- The entry of `calculate_total_voting_power_by_proposal` at an active
proposal id (and `0` at an inactive one, where the dict has no key). -/
def totalPowerQ (s : Scenario) (pid : ℤ) : ℚ :=
  ((votedVesselsFor s pid).map fun vv => powerQ vv.vessel).sum

/-- The entry of `calculate_hydromancer_voting_power_by_proposal` at an active
proposal id. -/
def hydroPowerQ (s : Scenario) (pid : ℤ) : ℚ :=
  ((hydroControlled (votedVesselsFor s pid)).map fun vv => powerQ vv.vessel).sum

/-- `hydromancer_share` (line 120): hydromancer power over total power. -/
def hydroShareQ (s : Scenario) (pid : ℤ) : ℚ :=
  hydroPowerQ s pid / totalPowerQ s pid

/-- The protocol increment per tribute of an active proposal (line 70):
`amount * protocol_commission_rate`. -/
def protocolTributeShare (s : Scenario) (t : Tribute) : ℚ :=
  t.amount * protocolRate s

/-- The hydromancer increment per tribute (lines 122-131):
`amount * (1 - protocolRate) * hydroShare * hydroRate`. -/
def hydroTributeCommission (s : Scenario) (pid : ℤ) (t : Tribute) : ℚ :=
  t.amount * (1 - protocolRate s) * hydroShareQ s pid * hydroRate s

/-- One user-controlled vessel's increment per tribute (lines 152-163):
`amount * (1 - protocolRate) * (vesselPower / totalPower)`. -/
def directVesselReward (s : Scenario) (pid : ℤ) (t : Tribute) (v : Vessel) : ℚ :=
  t.amount * (1 - protocolRate s) * (powerQ v / totalPowerQ s pid)

/-- All direct-path user increments for one tribute of one proposal. -/
def directTributeTotal (s : Scenario) (pid : ℤ) (t : Tribute) : ℚ :=
  ((userControlled (votedVesselsFor s pid)).map fun vv =>
    directVesselReward s pid t vv.vessel).sum

/-- `user_power` (lines 216-221) as a value: summed power of a user's
hydromancer-controlled vessels meeting the duration threshold. -/
def eligPowerQ (u : User) (bid : ℤ) : ℚ :=
  ((eligVessels u bid).map powerQ).sum

/-- `total_eligible_power` (lines 213-225): only users with positive
qualifying power contribute. -/
def totalEligibleQ (s : Scenario) (bid : ℤ) : ℚ :=
  (s.users.map fun u => if 0 < eligPowerQ u bid then eligPowerQ u bid else 0).sum

/-- One eligible user's delegated increment per tribute (lines 229-242):
`amount * (1 - protocolRate) * hydroShare * (1 - hydroRate) *
(userEligiblePower / totalEligiblePower)`. -/
def delegatedUserReward (s : Scenario) (p : Proposal) (t : Tribute) (u : User) : ℚ :=
  t.amount * (1 - protocolRate s) * hydroShareQ s p.id * (1 - hydroRate s) *
    (eligPowerQ u p.bid_duration_months / totalEligibleQ s p.bid_duration_months)

/-- All delegated-path user increments for one tribute of one proposal: zero
when no eligible power exists (the `total_eligible_power > 0` guard,
line 227). -/
def delegatedTributeTotal (s : Scenario) (p : Proposal) (t : Tribute) : ℚ :=
  if 0 < totalEligibleQ s p.bid_duration_months then
    (s.users.map fun u =>
      if 0 < eligPowerQ u p.bid_duration_months then delegatedUserReward s p t u else 0).sum
  else 0

/-- Data-model well-formedness of a vessel (spec section 3): valid token and
duration, nonnegative amount, and a recognised controller. -/
def vesselWF (v : Vessel) : Prop :=
  validVessel v ∧ 0 ≤ v.locked_amount ∧
    (v.controlled_by = "user" ∨ v.controlled_by = "hydromancer")

instance (v : Vessel) : Decidable (vesselWF v) := by
  unfold vesselWF
  infer_instance

/-- Data-model well-formedness of a whole scenario (spec section 3). -/
def ScenarioWF (s : Scenario) : Prop :=
  (∀ u ∈ s.users, ∀ v ∈ u.vessels, vesselWF v) ∧
    (∀ p ∈ s.proposals, ∀ t ∈ p.tributes, 0 ≤ t.amount) ∧
    0 ≤ s.protocol_config.protocol_commission_bps ∧
    s.protocol_config.protocol_commission_bps ≤ 10000 ∧
    0 ≤ s.protocol_config.hydromancer_commission_bps ∧
    s.protocol_config.hydromancer_commission_bps ≤ 10000

instance (s : Scenario) : Decidable (ScenarioWF s) := by
  unfold ScenarioWF
  infer_instance

/-- An error is one of the two input-validation kinds, carrying a witness that
its payload really fails the corresponding lookup. -/
def validationError : CalcError → Prop
  | .invalidToken d => token_multipliers d = none
  | .invalidDuration r => duration_multipliers r = none
  | .divisionByZero => False

/-- Every vessel of the scenario passes both multiplier lookups. -/
def scenarioValid (s : Scenario) : Prop :=
  ∀ u ∈ s.users, ∀ v ∈ u.vessels, validVessel v

theorem calculate_voting_power_ok {v : Vessel} (h : validVessel v) :
    calculate_voting_power v = .ok (powerQ v) := by
  obtain ⟨h1, h2⟩ := h
  unfold calculate_voting_power powerQ
  obtain ⟨tm, htm⟩ := Option.isSome_iff_exists.mp h1
  obtain ⟨dm, hdm⟩ := Option.isSome_iff_exists.mp h2
  rw [htm, hdm]
  simp

theorem calculate_voting_power_error_of_invalid {v : Vessel} (h : ¬ validVessel v) :
    ∃ e, calculate_voting_power v = .error e ∧ validationError e := by
  unfold validVessel at h
  unfold calculate_voting_power
  rcases hm : token_multipliers v.locked_denom with _ | tm
  · exact ⟨_, rfl, hm⟩
  · rcases hd : duration_multipliers v.lock_duration_rounds with _ | dm
    · exact ⟨_, rfl, hd⟩
    · exact absurd ⟨by simp [hm], by simp [hd]⟩ h

theorem calculate_voting_power_error_kind {v : Vessel} {e : CalcError}
    (h : calculate_voting_power v = .error e) : validationError e := by
  unfold calculate_voting_power at h
  rcases hm : token_multipliers v.locked_denom with _ | tm <;> rw [hm] at h
  · cases h
    exact hm
  · rcases hd : duration_multipliers v.lock_duration_rounds with _ | dm <;> rw [hd] at h
    · cases h
      exact hd
    · cases h

theorem safeDiv_ok {a b : ℚ} (h : b ≠ 0) : safeDiv a b = .ok (a / b) := by
  simp [safeDiv, h]

theorem safeDiv_eq_ok {a b q : ℚ} (h : safeDiv a b = .ok q) : b ≠ 0 ∧ q = a / b := by
  unfold safeDiv at h
  by_cases hb : b = 0
  · simp [hb] at h
  · simp [hb] at h
    exact ⟨hb, h.symm⟩

theorem safeDiv_error_kind {a b : ℚ} {e : CalcError} (h : safeDiv a b = .error e) :
    e = .divisionByZero := by
  unfold safeDiv at h
  by_cases hb : b = 0 <;> simp [hb] at h
  exact h.symm

theorem sumPowersE_ok {l : List Vessel} (h : ∀ v ∈ l, validVessel v) (acc : ℚ) :
    sumPowersE l acc = .ok (acc + (l.map powerQ).sum) := by
  induction l generalizing acc with
  | nil => simp [sumPowersE]
  | cons v rest ih =>
    have hv := calculate_voting_power_ok (h v (by simp))
    simp only [sumPowersE, hv]
    rw [ih (fun w hw => h w (by simp [hw]))]
    simp [add_assoc]

theorem sumPowersE_error_kind {l : List Vessel} {acc : ℚ} {e : CalcError}
    (h : sumPowersE l acc = .error e) : validationError e := by
  induction l generalizing acc with
  | nil => simp [sumPowersE] at h
  | cons v rest ih =>
    unfold sumPowersE at h
    rcases hv : calculate_voting_power v with e' | p <;> rw [hv] at h
    · cases h
      exact calculate_voting_power_error_kind hv
    · exact ih h

theorem sumPowersE_error_of_invalid {l : List Vessel}
    (h : ∃ v ∈ l, ¬ validVessel v) (acc : ℚ) :
    ∃ e, sumPowersE l acc = .error e ∧ validationError e := by
  induction l generalizing acc with
  | nil => simp at h
  | cons v rest ih =>
    by_cases hv : validVessel v
    · have hr : ∃ w ∈ rest, ¬ validVessel w := by
        obtain ⟨w, hw, hbad⟩ := h
        rcases List.mem_cons.mp hw with rfl | hw'
        · exact absurd hv hbad
        · exact ⟨w, hw', hbad⟩
      simp only [sumPowersE, calculate_voting_power_ok hv]
      exact ih hr _
    · obtain ⟨e, he, hke⟩ := calculate_voting_power_error_of_invalid hv
      exact ⟨e, by simp [sumPowersE, he], hke⟩

theorem buildPowerMap_ok {f : ℤ → Except CalcError ℚ} {g : ℤ → ℚ}
    {pids : List ℤ} (h : ∀ pid ∈ pids, f pid = .ok (g pid)) (m : ℤ → ℚ) :
    buildPowerMap f pids m = .ok (fun q => if q ∈ pids then g q else m q) := by
  induction pids generalizing m with
  | nil => simp [buildPowerMap]
  | cons pid rest ih =>
    simp only [buildPowerMap, h pid (by simp)]
    rw [ih (fun q hq => h q (by simp [hq]))]
    congr 1
    funext q
    by_cases hq : q ∈ rest
    · simp [hq, List.mem_cons]
    · by_cases hqp : q = pid <;> simp [hq, hqp, List.mem_cons]

theorem buildPowerMap_error_kind {f : ℤ → Except CalcError ℚ} {pids : List ℤ}
    {m : ℤ → ℚ} {e : CalcError} (hk : ∀ pid ∈ pids, ∀ e', f pid = .error e' → validationError e')
    (h : buildPowerMap f pids m = .error e) : validationError e := by
  induction pids generalizing m with
  | nil => simp [buildPowerMap] at h
  | cons pid rest ih =>
    unfold buildPowerMap at h
    rcases hf : f pid with e' | tp <;> rw [hf] at h
    · cases h
      exact hk pid (by simp) _ hf
    · exact ih (fun q hq => hk q (by simp [hq])) h

theorem mapME_ok {α β : Type} {f : α → Except CalcError β} {g : α → β}
    {l : List α} (h : ∀ a ∈ l, f a = .ok (g a)) :
    mapME f l = .ok (l.map g) := by
  induction l with
  | nil => simp [mapME]
  | cons a rest ih =>
    simp only [mapME, h a (by simp)]
    rw [ih (fun b hb => h b (by simp [hb]))]
    simp

theorem mapME_error_kind {α β : Type} (P : CalcError → Prop)
    {f : α → Except CalcError β} {l : List α} {e : CalcError}
    (hk : ∀ a ∈ l, ∀ e', f a = .error e' → P e')
    (h : mapME f l = .error e) : P e := by
  induction l with
  | nil => simp [mapME] at h
  | cons a rest ih =>
    unfold mapME at h
    rcases hf : f a with e' | b <;> rw [hf] at h
    · cases h
      exact hk a (by simp) _ hf
    · rcases hr : mapME f rest with e' | bs <;> rw [hr] at h
      · cases h
        exact ih (fun x hx => hk x (by simp [hx])) hr
      · cases h

theorem mapME_ok_forall {α β : Type} {f : α → Except CalcError β} {l : List α}
    {bs : List β} (h : mapME f l = .ok bs) :
    ∀ a ∈ l, ∃ b, f a = .ok b ∧ b ∈ bs := by
  induction l generalizing bs with
  | nil => simp
  | cons a rest ih =>
    unfold mapME at h
    rcases hf : f a with e' | b <;> rw [hf] at h
    · cases h
    · rcases hr : mapME f rest with e' | bs' <;> rw [hr] at h
      · cases h
      · cases h
        intro x hx
        rcases List.mem_cons.mp hx with rfl | hx'
        · exact ⟨b, hf, by simp⟩
        · obtain ⟨b', hb', hmem⟩ := ih hr x hx'
          exact ⟨b', hb', by simp [hmem]⟩

theorem flatMapME_ok {α β : Type} {f : α → Except CalcError (List β)} {g : α → List β}
    {l : List α} (h : ∀ a ∈ l, f a = .ok (g a)) :
    flatMapME f l = .ok (l.flatMap g) := by
  unfold flatMapME
  rw [mapME_ok h]
  simp [Except.map, List.flatMap]

theorem flatMapME_error_kind {α β : Type} (P : CalcError → Prop)
    {f : α → Except CalcError (List β)} {l : List α} {e : CalcError}
    (hk : ∀ a ∈ l, ∀ e', f a = .error e' → P e')
    (h : flatMapME f l = .error e) : P e := by
  unfold flatMapME at h
  rcases hm : mapME f l with e' | bs <;> rw [hm] at h <;> simp [Except.map] at h
  · exact h ▸ mapME_error_kind P hk hm

theorem flatMapME_ok_forall {α β : Type} {f : α → Except CalcError (List β)}
    {l : List α} {bs : List β} (h : flatMapME f l = .ok bs) :
    ∀ a ∈ l, ∃ b, f a = .ok b ∧ ∀ x ∈ b, x ∈ bs := by
  unfold flatMapME at h
  rcases hm : mapME f l with e' | bss <;> rw [hm] at h <;> simp [Except.map] at h
  intro a ha
  obtain ⟨b, hb, hmem⟩ := mapME_ok_forall hm a ha
  exact ⟨b, hb, fun x hx => h ▸ List.mem_flatten.mpr ⟨b, hmem, hx⟩⟩

theorem mem_votedVessels {s : Scenario} {vv : VotedVessel} (h : vv ∈ votedVessels s) :
    ∃ u ∈ s.users, vv.vessel ∈ u.vessels ∧ vv.user_id = u.user_id ∧
      vv.vessel.voted_proposal_id.isSome := by
  unfold votedVessels at h
  obtain ⟨u, hu, hv⟩ := List.mem_flatMap.mp h
  obtain ⟨v, hv', hv''⟩ := List.mem_filterMap.mp hv
  by_cases hvote : v.voted_proposal_id.isSome
  · rw [if_pos hvote] at hv''
    cases hv''
    exact ⟨u, hu, hv', rfl, hvote⟩
  · rw [if_neg hvote] at hv''
    cases hv''

theorem mem_votedVesselsFor {s : Scenario} {pid : ℤ} {vv : VotedVessel}
    (h : vv ∈ votedVesselsFor s pid) :
    vv ∈ votedVessels s ∧ vv.vessel.voted_proposal_id = some pid := by
  unfold votedVesselsFor at h
  have := List.mem_filter.mp h
  exact ⟨this.1, by simpa using this.2⟩

theorem votedVessels_valid {s : Scenario} (hs : scenarioValid s) {vv : VotedVessel}
    (h : vv ∈ votedVessels s) : validVessel vv.vessel := by
  obtain ⟨u, hu, hv, -⟩ := mem_votedVessels h
  exact hs u hu vv.vessel hv

theorem hydroControlled_subset {l : List VotedVessel} {vv : VotedVessel}
    (h : vv ∈ hydroControlled l) : vv ∈ l :=
  (List.mem_filter.mp h).1

theorem userControlled_subset {l : List VotedVessel} {vv : VotedVessel}
    (h : vv ∈ userControlled l) : vv ∈ l :=
  (List.mem_filter.mp h).1

theorem votedVesselsFor_eq_nil_of_not_active {s : Scenario} {pid : ℤ}
    (h : pid ∉ activePids s) : votedVesselsFor s pid = [] := by
  rw [List.eq_nil_iff_forall_not_mem]
  intro vv hvv
  obtain ⟨hmem, hvote⟩ := mem_votedVesselsFor hvv
  exact h ((mem_activePids s pid).mpr ⟨vv, hmem, hvote⟩)

theorem total_power_map_ok {s : Scenario} (hs : scenarioValid s) :
    calculate_total_voting_power_by_proposal s = .ok (totalPowerQ s) := by
  unfold calculate_total_voting_power_by_proposal
  have h : ∀ pid ∈ activePids s,
      sumPowersE ((votedVesselsFor s pid).map fun vv => vv.vessel) 0 =
        .ok (totalPowerQ s pid) := by
    intro pid _
    rw [sumPowersE_ok]
    · simp [totalPowerQ, Function.comp_def]
    · intro v hv
      obtain ⟨vv, hvv, rfl⟩ := List.mem_map.mp hv
      exact votedVessels_valid hs (mem_votedVesselsFor hvv).1
  rw [buildPowerMap_ok h]
  congr 1
  funext q
  by_cases hq : q ∈ activePids s
  · simp [hq]
  · simp [hq, totalPowerQ, votedVesselsFor_eq_nil_of_not_active hq]

theorem hydro_power_map_ok {s : Scenario} (hs : scenarioValid s) :
    calculate_hydromancer_voting_power_by_proposal s = .ok (hydroPowerQ s) := by
  unfold calculate_hydromancer_voting_power_by_proposal
  have h : ∀ pid ∈ activePids s,
      sumPowersE ((hydroControlled (votedVesselsFor s pid)).map fun vv => vv.vessel) 0 =
        .ok (hydroPowerQ s pid) := by
    intro pid _
    rw [sumPowersE_ok]
    · simp [hydroPowerQ, Function.comp_def]
    · intro v hv
      obtain ⟨vv, hvv, rfl⟩ := List.mem_map.mp hv
      exact votedVessels_valid hs (mem_votedVesselsFor (hydroControlled_subset hvv)).1
  rw [buildPowerMap_ok h]
  congr 1
  funext q
  by_cases hq : q ∈ activePids s
  · simp [hq]
  · simp [hq, hydroPowerQ, hydroControlled, votedVesselsFor_eq_nil_of_not_active hq]

theorem token_multipliers_nonneg (d : String) : 0 ≤ (token_multipliers d).getD 0 := by
  unfold token_multipliers
  split_ifs <;> norm_num

theorem duration_multipliers_nonneg (r : ℤ) : 0 ≤ (duration_multipliers r).getD 0 := by
  unfold duration_multipliers
  split_ifs <;> norm_num

theorem token_multipliers_pos {d : String} (h : (token_multipliers d).isSome) :
    0 < (token_multipliers d).getD 0 := by
  unfold token_multipliers at h ⊢
  split_ifs at h ⊢ <;> norm_num at h ⊢

theorem duration_multipliers_pos {r : ℤ} (h : (duration_multipliers r).isSome) :
    0 < (duration_multipliers r).getD 0 := by
  unfold duration_multipliers at h ⊢
  split_ifs at h ⊢ <;> norm_num at h ⊢

theorem powerQ_nonneg {v : Vessel} (h : 0 ≤ v.locked_amount) : 0 ≤ powerQ v := by
  unfold powerQ
  have h1 := token_multipliers_nonneg v.locked_denom
  have h2 := duration_multipliers_nonneg v.lock_duration_rounds
  positivity

/-- Every vessel mentioned by the users of a well-formed scenario is
well-formed. -/
theorem ScenarioWF.vessel {s : Scenario} (hwf : ScenarioWF s) {vv : VotedVessel}
    (h : vv ∈ votedVessels s) : vesselWF vv.vessel := by
  obtain ⟨u, hu, hv, -⟩ := mem_votedVessels h
  exact hwf.1 u hu vv.vessel hv

theorem ScenarioWF.valid {s : Scenario} (hwf : ScenarioWF s) : scenarioValid s :=
  fun u hu v hv => (hwf.1 u hu v hv).1

theorem totalPowerQ_nonneg {s : Scenario} (hwf : ScenarioWF s) (pid : ℤ) :
    0 ≤ totalPowerQ s pid := by
  apply List.sum_nonneg
  intro x hx
  obtain ⟨vv, hvv, rfl⟩ := List.mem_map.mp hx
  exact powerQ_nonneg (hwf.vessel (mem_votedVesselsFor hvv).1).2.1

theorem hydroPowerQ_nonneg {s : Scenario} (hwf : ScenarioWF s) (pid : ℤ) :
    0 ≤ hydroPowerQ s pid := by
  apply List.sum_nonneg
  intro x hx
  obtain ⟨vv, hvv, rfl⟩ := List.mem_map.mp hx
  exact powerQ_nonneg (hwf.vessel (mem_votedVesselsFor (hydroControlled_subset hvv)).1).2.1

/-- Splitting a voted group's power between the two recognised controllers. -/
theorem controller_power_partition {l : List VotedVessel}
    (h : ∀ vv ∈ l, vv.vessel.controlled_by = "user" ∨ vv.vessel.controlled_by = "hydromancer") :
    ((userControlled l).map fun vv => powerQ vv.vessel).sum +
      ((hydroControlled l).map fun vv => powerQ vv.vessel).sum =
      (l.map fun vv => powerQ vv.vessel).sum := by
  induction l with
  | nil => simp [userControlled, hydroControlled]
  | cons vv rest ih =>
    have hrest := ih fun w hw => h w (by simp [hw])
    rcases h vv (by simp) with hc | hc <;>
      simp [userControlled, hydroControlled, List.filter_cons, hc] at hrest ⊢ <;>
      linarith

theorem hydroPowerQ_le_totalPowerQ {s : Scenario} (hwf : ScenarioWF s) (pid : ℤ) :
    hydroPowerQ s pid ≤ totalPowerQ s pid := by
  have hpart := controller_power_partition
    (l := votedVesselsFor s pid)
    (fun vv hvv => (hwf.vessel (mem_votedVesselsFor hvv).1).2.2)
  have huser : 0 ≤ ((userControlled (votedVesselsFor s pid)).map fun vv => powerQ vv.vessel).sum := by
    apply List.sum_nonneg
    intro x hx
    obtain ⟨vv, hvv, rfl⟩ := List.mem_map.mp hx
    exact powerQ_nonneg (hwf.vessel (mem_votedVesselsFor (userControlled_subset hvv)).1).2.1
  unfold totalPowerQ hydroPowerQ
  linarith

theorem totalPowerQ_pos {s : Scenario} (hwf : ScenarioWF s) {pid : ℤ}
    (hH : 0 < hydroPowerQ s pid) : 0 < totalPowerQ s pid :=
  lt_of_lt_of_le hH (hydroPowerQ_le_totalPowerQ hwf pid)

theorem directTributeTotal_eq (s : Scenario) (pid : ℤ) (t : Tribute) :
    directTributeTotal s pid t =
      t.amount * (1 - protocolRate s) *
        (((userControlled (votedVesselsFor s pid)).map fun vv => powerQ vv.vessel).sum /
          totalPowerQ s pid) := by
  unfold directTributeTotal directVesselReward
  have : (fun vv : VotedVessel =>
      t.amount * (1 - protocolRate s) * (powerQ vv.vessel / totalPowerQ s pid)) =
      fun vv : VotedVessel =>
        (t.amount * (1 - protocolRate s) / totalPowerQ s pid) * powerQ vv.vessel := by
    funext vv
    ring
  rw [this, List.sum_map_mul_left]
  ring

theorem delegatedTributeTotal_eq {s : Scenario} {p : Proposal} (t : Tribute)
    (hE : 0 < totalEligibleQ s p.bid_duration_months) :
    delegatedTributeTotal s p t =
      t.amount * (1 - protocolRate s) * hydroShareQ s p.id * (1 - hydroRate s) := by
  unfold delegatedTributeTotal delegatedUserReward
  rw [if_pos hE]
  set c := t.amount * (1 - protocolRate s) * hydroShareQ s p.id * (1 - hydroRate s) with hc
  set E := totalEligibleQ s p.bid_duration_months with hEdef
  have hfun : (fun u : User =>
      if 0 < eligPowerQ u p.bid_duration_months then
        c * (eligPowerQ u p.bid_duration_months / E) else 0) =
      fun u : User =>
        (c / E) * (if 0 < eligPowerQ u p.bid_duration_months then
          eligPowerQ u p.bid_duration_months else 0) := by
    funext u
    split_ifs <;> ring
  rw [hfun, List.sum_map_mul_left]
  have hsum : (List.map (fun u => if 0 < eligPowerQ u p.bid_duration_months then
      eligPowerQ u p.bid_duration_months else 0) s.users).sum = E := rfl
  have hEne : E ≠ 0 := ne_of_gt hE
  rw [hsum]
  field_simp

/-- C1 — Conservation per tribute: whenever hydromancer's power on the
proposal is positive and the total eligible delegated power is positive, the
protocol commission, the hydromancer commission, all direct user shares and
all delegated user shares of a tribute sum exactly to the tribute amount
(before any 2-decimal rounding). -/
theorem conservation_per_tribute (s : Scenario) (p : Proposal) (t : Tribute)
    (hwf : ScenarioWF s)
    (hH : 0 < hydroPowerQ s p.id)
    (hE : 0 < totalEligibleQ s p.bid_duration_months) :
    protocolTributeShare s t + hydroTributeCommission s p.id t +
      directTributeTotal s p.id t + delegatedTributeTotal s p t = t.amount := by
  have hT : 0 < totalPowerQ s p.id := totalPowerQ_pos hwf hH
  have hpart := controller_power_partition
    (l := votedVesselsFor s p.id)
    (fun vv hvv => (hwf.vessel (mem_votedVesselsFor hvv).1).2.2)
  rw [directTributeTotal_eq, delegatedTributeTotal_eq t hE]
  unfold protocolTributeShare hydroTributeCommission hydroShareQ
  have hUT : ((userControlled (votedVesselsFor s p.id)).map fun vv => powerQ vv.vessel).sum +
      hydroPowerQ s p.id = totalPowerQ s p.id := hpart
  have hTne : totalPowerQ s p.id ≠ 0 := ne_of_gt hT
  field_simp
  linear_combination (t.amount * (1 - protocolRate s)) * hUT

/-- The value of `hydroEntriesForProposal` at the power maps the program
computes, under well-formed input. -/
def hydroEntriesQ (s : Scenario) (p : Proposal) : List (String × ℚ) :=
  if ¬ (votedVesselsFor s p.id).isEmpty ∧ 0 < hydroPowerQ s p.id then
    p.tributes.map fun t => (t.denom, hydroTributeCommission s p.id t)
  else []

/-- The value of `delegatedEntriesForProposal` under well-formed input. -/
def delegatedEntriesQ (s : Scenario) (p : Proposal) : List (String × String × ℚ) :=
  if (votedVesselsFor s p.id).isEmpty then []
  else if (hydroControlled (votedVesselsFor s p.id)).isEmpty then []
  else if 0 < ((((s.users.map fun u =>
        (u.user_id, eligPowerQ u p.bid_duration_months)).filter fun e =>
          decide (0 < e.2)).map fun e => e.2).sum) then
    p.tributes.flatMap fun t =>
      ((s.users.map fun u =>
          (u.user_id, eligPowerQ u p.bid_duration_months)).filter fun e =>
            decide (0 < e.2)).map fun e =>
        (e.1, t.denom,
          t.amount * (1 - protocolRate s) * hydroShareQ s p.id * (1 - hydroRate s) *
            (e.2 / (((s.users.map fun u =>
              (u.user_id, eligPowerQ u p.bid_duration_months)).filter fun e =>
                decide (0 < e.2)).map fun e => e.2).sum))
  else []

theorem ok_bind {α β : Type} (a : α) (f : α → Except CalcError β) :
    (Except.ok a : Except CalcError α) >>= f = f a := rfl

theorem error_bind {α β : Type} (e : CalcError) (f : α → Except CalcError β) :
    (Except.error e : Except CalcError α) >>= f = Except.error e := rfl

theorem hydroControlled_ne_nil_of_pos {s : Scenario} {pid : ℤ}
    (h : 0 < hydroPowerQ s pid) : hydroControlled (votedVesselsFor s pid) ≠ [] := by
  intro hnil
  rw [hydroPowerQ, hnil] at h
  simp at h

theorem votedVesselsFor_ne_nil_of_pos {s : Scenario} {pid : ℤ}
    (h : 0 < hydroPowerQ s pid) : votedVesselsFor s pid ≠ [] := by
  intro hnil
  exact hydroControlled_ne_nil_of_pos h (by simp [hnil, hydroControlled])

theorem eligPowerE_ok {u : User} (h : ∀ v ∈ u.vessels, validVessel v) (bid : ℤ) :
    eligPowerE u bid = .ok (eligPowerQ u bid) := by
  unfold eligPowerE eligPowerQ
  rw [sumPowersE_ok, zero_add]
  intro v hv
  exact h v (List.mem_filter.mp (List.mem_filter.mp hv).1).1

theorem sum_filter_pos {α : Type} (l : List α) (g : α → ℚ) (name : α → String) :
    ((((l.map fun a => (name a, g a)).filter fun e => decide (0 < e.2)).map fun e => e.2).sum) =
      (l.map fun a => if 0 < g a then g a else 0).sum := by
  induction l with
  | nil => simp
  | cons a rest ih =>
    by_cases h : 0 < g a <;> simp [h, ih]

theorem protocolEntriesForProposal_active {s : Scenario} {p : Proposal}
    (h : votedVesselsFor s p.id ≠ []) :
    protocolEntriesForProposal s p =
      p.tributes.map fun t => (t.denom, protocolTributeShare s t) := by
  unfold protocolEntriesForProposal protocolTributeShare
  rw [if_neg (by simpa using h)]

theorem hydroEntriesForProposal_eq {s : Scenario} (hwf : ScenarioWF s) (p : Proposal) :
    hydroEntriesForProposal s (hydroPowerQ s) (totalPowerQ s) p = .ok (hydroEntriesQ s p) := by
  unfold hydroEntriesForProposal hydroEntriesQ
  by_cases hg : ¬ (votedVesselsFor s p.id).isEmpty ∧ 0 < hydroPowerQ s p.id
  · rw [if_pos hg, if_pos hg]
    have hT : totalPowerQ s p.id ≠ 0 := ne_of_gt (totalPowerQ_pos hwf hg.2)
    rw [safeDiv_ok hT, ok_bind]
    unfold hydroTributeCommission hydroShareQ
    rfl
  · rw [if_neg hg, if_neg hg]

theorem delegatedEntriesForProposal_ok {s : Scenario} (hwf : ScenarioWF s) {p : Proposal}
    (hT : hydroControlled (votedVesselsFor s p.id) ≠ [] → 0 < totalPowerQ s p.id) :
    delegatedEntriesForProposal s p = .ok (delegatedEntriesQ s p) := by
  unfold delegatedEntriesForProposal delegatedEntriesQ
  by_cases h1 : (votedVesselsFor s p.id).isEmpty
  · rw [if_pos h1, if_pos h1]
  · rw [if_neg h1, if_neg h1]
    by_cases h2 : (hydroControlled (votedVesselsFor s p.id)).isEmpty
    · rw [if_pos h2, if_pos h2]
    · rw [if_neg h2, if_neg h2]
      have hvalid : ∀ v ∈ (hydroControlled (votedVesselsFor s p.id)).map
          (fun vv => vv.vessel), validVessel v := by
        intro v hv
        obtain ⟨vv, hvv, rfl⟩ := List.mem_map.mp hv
        exact (hwf.vessel (mem_votedVesselsFor (hydroControlled_subset hvv)).1).1
      have hsum : sumPowersE ((hydroControlled (votedVesselsFor s p.id)).map
          fun vv => vv.vessel) 0 = .ok (hydroPowerQ s p.id) := by
        rw [sumPowersE_ok hvalid, zero_add]
        simp [hydroPowerQ, Function.comp_def]
      rw [hsum, ok_bind, total_power_map_ok hwf.valid, ok_bind]
      have hTpos : 0 < totalPowerQ s p.id := hT (by simpa using h2)
      rw [safeDiv_ok (ne_of_gt hTpos), ok_bind]
      have heligs : mapME (fun u => do
          let ep ← eligPowerE u p.bid_duration_months
          .ok (u.user_id, ep)) s.users =
          .ok (s.users.map fun u => (u.user_id, eligPowerQ u p.bid_duration_months)) := by
        apply mapME_ok
        intro u hu
        rw [eligPowerE_ok (fun v hv => hwf.valid u hu v hv)]
        rfl
      rw [heligs, ok_bind]
      unfold hydroShareQ
      split_ifs with hpos <;> rfl

theorem calculate_hydromancer_rewards_ok {s : Scenario} (hwf : ScenarioWF s) :
    calculate_hydromancer_rewards s =
      .ok (accumulateDenom (s.proposals.flatMap fun p => hydroEntriesQ s p)) := by
  unfold calculate_hydromancer_rewards
  rw [hydro_power_map_ok hwf.valid, ok_bind, total_power_map_ok hwf.valid, ok_bind,
    flatMapME_ok (fun p _ => hydroEntriesForProposal_eq hwf p), ok_bind]

theorem calculate_user_delegated_rewards_ok {s : Scenario} (hwf : ScenarioWF s)
    (hT : ∀ p ∈ s.proposals,
      hydroControlled (votedVesselsFor s p.id) ≠ [] → 0 < totalPowerQ s p.id) :
    calculate_user_delegated_rewards s =
      .ok (accumulateUser (s.proposals.flatMap fun p => delegatedEntriesQ s p)) := by
  unfold calculate_user_delegated_rewards
  rw [flatMapME_ok (fun p hp => delegatedEntriesForProposal_ok hwf (hT p hp)), ok_bind]

theorem totalEligibleQ_eq_filter_sum (s : Scenario) (bid : ℤ) :
    ((((s.users.map fun u => (u.user_id, eligPowerQ u bid)).filter fun e =>
      decide (0 < e.2)).map fun e => e.2).sum) = totalEligibleQ s bid :=
  sum_filter_pos s.users (fun u => eligPowerQ u bid) (fun u => u.user_id)

/-- C3 — Silent drop of the uncovered delegated residual: on a proposal with
positive hydromancer voting power but zero total eligible delegated power, the
delegated path produces no reward increment for anyone, while the protocol and
hydromancer increments for that proposal are exactly the plain commission
formulas — nothing is rerouted. -/
theorem silent_drop_uncovered_residual (s : Scenario) (p : Proposal)
    (hwf : ScenarioWF s)
    (hH : 0 < hydroPowerQ s p.id)
    (hE : totalEligibleQ s p.bid_duration_months = 0) :
    delegatedEntriesForProposal s p = .ok [] ∧
    hydroEntriesQ s p =
      (p.tributes.map fun t => (t.denom, hydroTributeCommission s p.id t)) ∧
    protocolEntriesForProposal s p =
      (p.tributes.map fun t => (t.denom, protocolTributeShare s t)) := by
  have hne := votedVesselsFor_ne_nil_of_pos hH
  refine ⟨?_, ?_, protocolEntriesForProposal_active hne⟩
  · rw [delegatedEntriesForProposal_ok hwf (fun _ => totalPowerQ_pos hwf hH)]
    unfold delegatedEntriesQ
    rw [if_neg (by simpa using hne),
      if_neg (by simpa using hydroControlled_ne_nil_of_pos hH)]
    rw [if_neg]
    rw [totalEligibleQ_eq_filter_sum, hE]
    simp
  · unfold hydroEntriesQ
    rw [if_pos ⟨by simpa using hne, hH⟩]

/-- C4 — Commission layering: on a proposal whose every voter is
hydromancer-controlled (so the hydromancer share is 1) with no eligible
delegated user, the hydromancer increment per tribute is exactly
`amount * (1 - protocolRate) * hydroRate`, and the protocol increment is
exactly `amount * protocolRate`. -/
theorem commission_layering (s : Scenario) (p : Proposal) (t : Tribute)
    (hwf : ScenarioWF s)
    (hall : ∀ vv ∈ votedVesselsFor s p.id, vv.vessel.controlled_by = "hydromancer")
    (hH : 0 < hydroPowerQ s p.id)
    (hE : totalEligibleQ s p.bid_duration_months = 0)
    (ht : t ∈ p.tributes) :
    hydroTributeCommission s p.id t = t.amount * (1 - protocolRate s) * hydroRate s ∧
    protocolTributeShare s t = t.amount * protocolRate s := by
  refine ⟨?_, rfl⟩
  have hfull : hydroControlled (votedVesselsFor s p.id) = votedVesselsFor s p.id := by
    apply List.filter_eq_self.mpr
    intro vv hvv
    simp [hall vv hvv]
  have hHT : hydroPowerQ s p.id = totalPowerQ s p.id := by
    unfold hydroPowerQ totalPowerQ
    rw [hfull]
  unfold hydroTributeCommission hydroShareQ
  rw [← hHT, div_self (ne_of_gt hH)]
  ring

/-- The first proposal of the sample scenario, as a standalone value. -/
def sampleProposal1 : Proposal :=
  { id := 1, bid_duration_months := 1
    tributes := [ { id := 1, denom := "dATOM", amount := 1000 }
                , { id := 2, denom := "USDC", amount := 500 } ] }

/-- The dATOM tribute of the sample scenario. -/
def sampleTribute1 : Tribute := { id := 1, denom := "dATOM", amount := 1000 }

/-- Witness for C1, at the embedded sample scenario and its dATOM tribute. -/
theorem conservation_per_tribute_witness :
    ScenarioWF sampleScenario ∧ 0 < hydroPowerQ sampleScenario 1 ∧
    0 < totalEligibleQ sampleScenario 1 ∧
    protocolTributeShare sampleScenario sampleTribute1 +
      hydroTributeCommission sampleScenario 1 sampleTribute1 +
      directTributeTotal sampleScenario 1 sampleTribute1 +
      delegatedTributeTotal sampleScenario sampleProposal1 sampleTribute1 =
      sampleTribute1.amount := by
  have hwf : ScenarioWF sampleScenario := by decide
  have hH : 0 < hydroPowerQ sampleScenario 1 := by
    simp [hydroPowerQ, votedVesselsFor, votedVessels, sampleScenario, hydroControlled,
      powerQ, token_multipliers, duration_multipliers, List.filter_cons]
    norm_num
  have hE : 0 < totalEligibleQ sampleScenario 1 := by
    simp [totalEligibleQ, eligPowerQ, eligVessels, hydroVesselsOfUser, sampleScenario,
      powerQ, token_multipliers, duration_multipliers, List.filter_cons]
    norm_num
  exact ⟨hwf, hH, hE,
    conservation_per_tribute sampleScenario sampleProposal1 sampleTribute1 hwf hH hE⟩

/-- A scenario with a single hydromancer-controlled voter whose lock duration
(2) is below the proposal's bid duration (3): hydromancer holds every vote yet
no delegated user is eligible. -/
def soloHydroScenario : Scenario :=
  { protocol_config := { protocol_commission_bps := 1000, hydromancer_commission_bps := 500 }
    users :=
      [ { user_id := "A"
          vessels :=
            [ { id := 1, lock_duration_rounds := 2, locked_denom := "dATOM"
                locked_amount := 100, controlled_by := "hydromancer"
                voted_proposal_id := some 1 } ] } ]
    proposals :=
      [ { id := 1, bid_duration_months := 3
          tributes := [ { id := 1, denom := "dATOM", amount := 1000 } ] } ] }

/-- The proposal of `soloHydroScenario`. -/
def soloProposal : Proposal :=
  { id := 1, bid_duration_months := 3
    tributes := [ { id := 1, denom := "dATOM", amount := 1000 } ] }

/-- The tribute of `soloHydroScenario`. -/
def soloTribute : Tribute := { id := 1, denom := "dATOM", amount := 1000 }

/-- Witness for C3, at a scenario where hydromancer voted but no delegated
user meets the duration threshold. -/
theorem silent_drop_uncovered_residual_witness :
    ScenarioWF soloHydroScenario ∧ 0 < hydroPowerQ soloHydroScenario 1 ∧
    totalEligibleQ soloHydroScenario 3 = 0 ∧
    (delegatedEntriesForProposal soloHydroScenario soloProposal = .ok [] ∧
     hydroEntriesQ soloHydroScenario soloProposal =
       (soloProposal.tributes.map fun t =>
         (t.denom, hydroTributeCommission soloHydroScenario soloProposal.id t)) ∧
     protocolEntriesForProposal soloHydroScenario soloProposal =
       (soloProposal.tributes.map fun t =>
         (t.denom, protocolTributeShare soloHydroScenario t))) := by
  have hwf : ScenarioWF soloHydroScenario := by decide
  have hH : 0 < hydroPowerQ soloHydroScenario 1 := by
    simp [hydroPowerQ, votedVesselsFor, votedVessels, soloHydroScenario, hydroControlled,
      powerQ, token_multipliers, duration_multipliers, List.filter_cons]
    norm_num
  have hE : totalEligibleQ soloHydroScenario 3 = 0 := by
    simp [totalEligibleQ, eligPowerQ, eligVessels, hydroVesselsOfUser, soloHydroScenario,
      powerQ, token_multipliers, duration_multipliers, List.filter_cons]
  exact ⟨hwf, hH, hE, silent_drop_uncovered_residual soloHydroScenario soloProposal hwf hH hE⟩

/-- Witness for C4, at a scenario fully controlled by hydromancer with zero
eligible delegated users. -/
theorem commission_layering_witness :
    ScenarioWF soloHydroScenario ∧
    (∀ vv ∈ votedVesselsFor soloHydroScenario 1, vv.vessel.controlled_by = "hydromancer") ∧
    0 < hydroPowerQ soloHydroScenario 1 ∧
    totalEligibleQ soloHydroScenario 3 = 0 ∧
    soloTribute ∈ soloProposal.tributes ∧
    (hydroTributeCommission soloHydroScenario 1 soloTribute =
       soloTribute.amount * (1 - protocolRate soloHydroScenario) * hydroRate soloHydroScenario ∧
     protocolTributeShare soloHydroScenario soloTribute =
       soloTribute.amount * protocolRate soloHydroScenario) := by
  have hwf : ScenarioWF soloHydroScenario := by decide
  have hall : ∀ vv ∈ votedVesselsFor soloHydroScenario 1,
      vv.vessel.controlled_by = "hydromancer" := by decide
  have hH : 0 < hydroPowerQ soloHydroScenario 1 := by
    simp [hydroPowerQ, votedVesselsFor, votedVessels, soloHydroScenario, hydroControlled,
      powerQ, token_multipliers, duration_multipliers, List.filter_cons]
    norm_num
  have hE : totalEligibleQ soloHydroScenario 3 = 0 := by
    simp [totalEligibleQ, eligPowerQ, eligVessels, hydroVesselsOfUser, soloHydroScenario,
      powerQ, token_multipliers, duration_multipliers, List.filter_cons]
  have ht : soloTribute ∈ soloProposal.tributes := by decide
  exact ⟨hwf, hall, hH, hE, ht,
    commission_layering soloHydroScenario soloProposal soloTribute hwf hall hH hE ht⟩

/-- C8 — Voting power formula: on any vessel with a recognised token and
duration, `calculate_voting_power` succeeds with
`locked_amount * token_multiplier * duration_multiplier`, where the tables
are dATOM ↦ 1.3, stATOM ↦ 1.6 and 1 ↦ 1.0, 2 ↦ 1.25, 3 ↦ 1.5; the
computation is a pure function of the vessel. -/
theorem voting_power_formula (v : Vessel)
    (hd : v.locked_denom = "dATOM" ∨ v.locked_denom = "stATOM")
    (hr : v.lock_duration_rounds = 1 ∨ v.lock_duration_rounds = 2 ∨
      v.lock_duration_rounds = 3) :
    token_multipliers "dATOM" = some (1.3 : ℚ) ∧
    token_multipliers "stATOM" = some (1.6 : ℚ) ∧
    duration_multipliers 1 = some (1.0 : ℚ) ∧
    duration_multipliers 2 = some (1.25 : ℚ) ∧
    duration_multipliers 3 = some (1.5 : ℚ) ∧
    ∃ tm dm, token_multipliers v.locked_denom = some tm ∧
      duration_multipliers v.lock_duration_rounds = some dm ∧
      calculate_voting_power v = .ok (v.locked_amount * tm * dm) := by
  refine ⟨by simp [token_multipliers], by simp [token_multipliers],
    by simp [duration_multipliers], by simp [duration_multipliers],
    by simp [duration_multipliers], ?_⟩
  have htm : ∃ tm, token_multipliers v.locked_denom = some tm := by
    rcases hd with h | h
    · exact ⟨(1.3 : ℚ), by rw [h]; simp [token_multipliers]⟩
    · exact ⟨(1.6 : ℚ), by rw [h]; simp [token_multipliers]⟩
  have hdm : ∃ dm, duration_multipliers v.lock_duration_rounds = some dm := by
    rcases hr with h | h | h
    · exact ⟨(1.0 : ℚ), by rw [h]; simp [duration_multipliers]⟩
    · exact ⟨(1.25 : ℚ), by rw [h]; simp [duration_multipliers]⟩
    · exact ⟨(1.5 : ℚ), by rw [h]; simp [duration_multipliers]⟩
  obtain ⟨tm, htm⟩ := htm
  obtain ⟨dm, hdm⟩ := hdm
  refine ⟨tm, dm, htm, hdm, ?_⟩
  unfold calculate_voting_power
  rw [htm, hdm]

/-- Witness for C8: a stATOM vessel with duration 3 and amount 7. -/
theorem voting_power_formula_witness :
    (let v : Vessel := { id := 9, lock_duration_rounds := 3, locked_denom := "stATOM"
                         locked_amount := 7, controlled_by := "user"
                         voted_proposal_id := none }
     (v.locked_denom = "dATOM" ∨ v.locked_denom = "stATOM") ∧
     (v.lock_duration_rounds = 1 ∨ v.lock_duration_rounds = 2 ∨ v.lock_duration_rounds = 3) ∧
     (token_multipliers "dATOM" = some (1.3 : ℚ) ∧
      token_multipliers "stATOM" = some (1.6 : ℚ) ∧
      duration_multipliers 1 = some (1.0 : ℚ) ∧
      duration_multipliers 2 = some (1.25 : ℚ) ∧
      duration_multipliers 3 = some (1.5 : ℚ) ∧
      ∃ tm dm, token_multipliers v.locked_denom = some tm ∧
        duration_multipliers v.lock_duration_rounds = some dm ∧
        calculate_voting_power v = .ok (v.locked_amount * tm * dm))) := by
  refine ⟨Or.inr rfl, Or.inr (Or.inr rfl), ?_⟩
  exact voting_power_formula _ (Or.inr rfl) (Or.inr (Or.inr rfl))

theorem flatMapME_cons {α β : Type} (f : α → Except CalcError (List β)) (a : α)
    (l : List α) :
    flatMapME f (a :: l) =
      (f a).bind fun b => (flatMapME f l).map fun bs => b ++ bs := by
  unfold flatMapME
  simp only [mapME]
  cases hf : f a <;> simp only [hf] <;> cases hl : mapME f l <;>
    simp [hl, Except.map, Except.bind]

theorem flatMapME_middle_nil {α β : Type} {f : α → Except CalcError (List β)} {p : α}
    (hp : f p = .ok []) (l₁ l₂ : List α) :
    flatMapME f (l₁ ++ p :: l₂) = flatMapME f (l₁ ++ l₂) := by
  induction l₁ with
  | nil =>
    simp only [List.nil_append, flatMapME_cons, hp]
    cases hl : flatMapME f l₂ <;> simp [Except.map, Except.bind]
  | cons a rest ih =>
    simp only [List.cons_append, flatMapME_cons, ih]

/-- C7 — Inactive proposals contribute zero: removing a proposal for which no
vessel voted changes none of the four reward computations nor the final
result; in particular its tributes produce no reward entry anywhere. -/
theorem inactive_proposal_contributes_zero
    (pc : ProtocolConfig) (users : List User) (ps₁ ps₂ : List Proposal) (p : Proposal)
    (hinactive : votedVesselsFor ⟨pc, users, ps₁ ++ p :: ps₂⟩ p.id = []) :
    calculate_protocol_rewards ⟨pc, users, ps₁ ++ p :: ps₂⟩ =
      calculate_protocol_rewards ⟨pc, users, ps₁ ++ ps₂⟩ ∧
    calculate_hydromancer_rewards ⟨pc, users, ps₁ ++ p :: ps₂⟩ =
      calculate_hydromancer_rewards ⟨pc, users, ps₁ ++ ps₂⟩ ∧
    calculate_user_direct_rewards ⟨pc, users, ps₁ ++ p :: ps₂⟩ =
      calculate_user_direct_rewards ⟨pc, users, ps₁ ++ ps₂⟩ ∧
    calculate_user_delegated_rewards ⟨pc, users, ps₁ ++ p :: ps₂⟩ =
      calculate_user_delegated_rewards ⟨pc, users, ps₁ ++ ps₂⟩ ∧
    calculate_all_rewards ⟨pc, users, ps₁ ++ p :: ps₂⟩ =
      calculate_all_rewards ⟨pc, users, ps₁ ++ ps₂⟩ := by
  have hin' : votedVesselsFor ⟨pc, users, ps₁ ++ ps₂⟩ p.id = [] := hinactive
  have hemp : ((votedVesselsFor ⟨pc, users, ps₁ ++ ps₂⟩ p.id).isEmpty) = true := by
    rw [hin']
    rfl
  have hproto : calculate_protocol_rewards ⟨pc, users, ps₁ ++ p :: ps₂⟩ =
      calculate_protocol_rewards ⟨pc, users, ps₁ ++ ps₂⟩ := by
    unfold calculate_protocol_rewards
    have hfe : protocolEntriesForProposal ⟨pc, users, ps₁ ++ p :: ps₂⟩ =
        protocolEntriesForProposal ⟨pc, users, ps₁ ++ ps₂⟩ := rfl
    rw [hfe]
    have hp : protocolEntriesForProposal ⟨pc, users, ps₁ ++ ps₂⟩ p = [] := by
      unfold protocolEntriesForProposal
      rw [if_pos hemp]
    rw [List.flatMap_append, List.flatMap_cons, hp, List.nil_append, ← List.flatMap_append]
  have hhydro : calculate_hydromancer_rewards ⟨pc, users, ps₁ ++ p :: ps₂⟩ =
      calculate_hydromancer_rewards ⟨pc, users, ps₁ ++ ps₂⟩ := by
    unfold calculate_hydromancer_rewards
    have e1 : calculate_hydromancer_voting_power_by_proposal ⟨pc, users, ps₁ ++ p :: ps₂⟩ =
        calculate_hydromancer_voting_power_by_proposal ⟨pc, users, ps₁ ++ ps₂⟩ := rfl
    have e2 : calculate_total_voting_power_by_proposal ⟨pc, users, ps₁ ++ p :: ps₂⟩ =
        calculate_total_voting_power_by_proposal ⟨pc, users, ps₁ ++ ps₂⟩ := rfl
    have e3 : hydroEntriesForProposal ⟨pc, users, ps₁ ++ p :: ps₂⟩ =
        hydroEntriesForProposal ⟨pc, users, ps₁ ++ ps₂⟩ := rfl
    rw [e1, e2, e3]
    rcases hh : calculate_hydromancer_voting_power_by_proposal ⟨pc, users, ps₁ ++ ps₂⟩ with
      e | hmap
    · rfl
    · rw [ok_bind, ok_bind]
      rcases ht : calculate_total_voting_power_by_proposal ⟨pc, users, ps₁ ++ ps₂⟩ with
        e | tmap
      · rfl
      · rw [ok_bind, ok_bind]
        have hp : hydroEntriesForProposal ⟨pc, users, ps₁ ++ ps₂⟩ hmap tmap p = .ok [] := by
          unfold hydroEntriesForProposal
          rw [if_neg (by simp [hemp])]
        rw [flatMapME_middle_nil hp]
  have hdirect : calculate_user_direct_rewards ⟨pc, users, ps₁ ++ p :: ps₂⟩ =
      calculate_user_direct_rewards ⟨pc, users, ps₁ ++ ps₂⟩ := by
    unfold calculate_user_direct_rewards
    have e2 : calculate_total_voting_power_by_proposal ⟨pc, users, ps₁ ++ p :: ps₂⟩ =
        calculate_total_voting_power_by_proposal ⟨pc, users, ps₁ ++ ps₂⟩ := rfl
    have e3 : directEntriesForProposal ⟨pc, users, ps₁ ++ p :: ps₂⟩ =
        directEntriesForProposal ⟨pc, users, ps₁ ++ ps₂⟩ := rfl
    rw [e2, e3]
    rcases ht : calculate_total_voting_power_by_proposal ⟨pc, users, ps₁ ++ ps₂⟩ with
      e | tmap
    · rfl
    · rw [ok_bind, ok_bind]
      have hp : directEntriesForProposal ⟨pc, users, ps₁ ++ ps₂⟩ tmap p = .ok [] := by
        unfold directEntriesForProposal
        rw [if_pos hemp]
      rw [flatMapME_middle_nil hp]
  have hdeleg : calculate_user_delegated_rewards ⟨pc, users, ps₁ ++ p :: ps₂⟩ =
      calculate_user_delegated_rewards ⟨pc, users, ps₁ ++ ps₂⟩ := by
    unfold calculate_user_delegated_rewards
    have e3 : delegatedEntriesForProposal ⟨pc, users, ps₁ ++ p :: ps₂⟩ =
        delegatedEntriesForProposal ⟨pc, users, ps₁ ++ ps₂⟩ := rfl
    rw [e3]
    have hp : delegatedEntriesForProposal ⟨pc, users, ps₁ ++ ps₂⟩ p = .ok [] := by
      unfold delegatedEntriesForProposal
      rw [if_pos hemp]
    rw [flatMapME_middle_nil hp]
  refine ⟨hproto, hhydro, hdirect, hdeleg, ?_⟩
  unfold calculate_all_rewards
  rw [hproto, hhydro, hdirect, hdeleg]

/-- A proposal nobody votes for, used to witness C7. -/
def inactiveProposal2 : Proposal :=
  { id := 2, bid_duration_months := 1
    tributes := [ { id := 1, denom := "NTRN", amount := 77 } ] }

/-- The sample scenario with the unvoted proposal 2 inserted in front. -/
def c7Big : Scenario :=
  ⟨⟨1000, 500⟩, sampleScenario.users, [inactiveProposal2, sampleProposal1]⟩

/-- The same scenario without the unvoted proposal. -/
def c7Small : Scenario :=
  ⟨⟨1000, 500⟩, sampleScenario.users, [sampleProposal1]⟩

/-- Witness for C7: the sample users with an extra proposal that received no
vote. -/
theorem inactive_proposal_contributes_zero_witness :
    votedVesselsFor c7Big inactiveProposal2.id = [] ∧
    (calculate_protocol_rewards c7Big = calculate_protocol_rewards c7Small ∧
     calculate_hydromancer_rewards c7Big = calculate_hydromancer_rewards c7Small ∧
     calculate_user_direct_rewards c7Big = calculate_user_direct_rewards c7Small ∧
     calculate_user_delegated_rewards c7Big = calculate_user_delegated_rewards c7Small ∧
     calculate_all_rewards c7Big = calculate_all_rewards c7Small) := by
  have h : votedVesselsFor ⟨⟨1000, 500⟩, sampleScenario.users,
      [] ++ inactiveProposal2 :: [sampleProposal1]⟩ inactiveProposal2.id = [] := by decide
  exact ⟨h, inactive_proposal_contributes_zero ⟨1000, 500⟩ sampleScenario.users
    [] [sampleProposal1] inactiveProposal2 h⟩

theorem buildPowerMap_error_of_exists {f : ℤ → Except CalcError ℚ} {pids : List ℤ}
    (hex : ∃ pid ∈ pids, ∃ e, f pid = .error e ∧ validationError e)
    (hk : ∀ pid ∈ pids, ∀ e, f pid = .error e → validationError e) (m : ℤ → ℚ) :
    ∃ e, buildPowerMap f pids m = .error e ∧ validationError e := by
  induction pids generalizing m with
  | nil => simp at hex
  | cons pid rest ih =>
    rcases hf : f pid with e | tp
    · exact ⟨e, by simp [buildPowerMap, hf], hk pid (by simp) e hf⟩
    · obtain ⟨pid', hpid', e, he, hke⟩ := hex
      rcases List.mem_cons.mp hpid' with rfl | hmem
      · rw [hf] at he
        cases he
      · have hex' : ∃ q ∈ rest, ∃ e, f q = .error e ∧ validationError e :=
          ⟨pid', hmem, e, he, hke⟩
        obtain ⟨e', he', hke'⟩ := ih hex' (fun q hq => hk q (by simp [hq]))
          (fun q => if q = pid then tp else m q)
        exact ⟨e', by simp [buildPowerMap, hf, he'], hke'⟩

theorem total_power_map_error_of_invalid {s : Scenario} {vv : VotedVessel}
    (hmem : vv ∈ votedVessels s) (hbad : ¬ validVessel vv.vessel) :
    ∃ e, calculate_total_voting_power_by_proposal s = .error e ∧ validationError e := by
  obtain ⟨u, hu, hvmem, huid, hsome⟩ := mem_votedVessels hmem
  obtain ⟨pid, hpid⟩ := Option.isSome_iff_exists.mp hsome
  have hvfor : vv ∈ votedVesselsFor s pid :=
    List.mem_filter.mpr ⟨hmem, by simp [hpid]⟩
  have hact : pid ∈ activePids s := (mem_activePids s pid).mpr ⟨vv, hmem, hpid⟩
  unfold calculate_total_voting_power_by_proposal
  apply buildPowerMap_error_of_exists
  · refine ⟨pid, hact, ?_⟩
    apply sumPowersE_error_of_invalid
    exact ⟨vv.vessel, List.mem_map.mpr ⟨vv, hvfor, rfl⟩, hbad⟩
  · intro q _ e he
    exact sumPowersE_error_kind he

theorem hydro_power_map_error_kind {s : Scenario} {e : CalcError}
    (h : calculate_hydromancer_voting_power_by_proposal s = .error e) :
    validationError e := by
  unfold calculate_hydromancer_voting_power_by_proposal at h
  exact buildPowerMap_error_kind (fun pid _ e' he' => sumPowersE_error_kind he') h

/-- C2 (amended) — Validation on voted vessels: any scenario containing a
vessel that voted and whose token or duration fails its multiplier lookup
aborts the whole computation with the corresponding validation error kind;
no partial result is produced. -/
theorem abort_on_invalid_voted_vessel (s : Scenario) (vv : VotedVessel)
    (hmem : vv ∈ votedVessels s) (hbad : ¬ validVessel vv.vessel) :
    ∃ e, calculate_all_rewards s = .error e ∧ validationError e := by
  have hhydro : ∃ e, calculate_hydromancer_rewards s = .error e ∧ validationError e := by
    unfold calculate_hydromancer_rewards
    rcases hh : calculate_hydromancer_voting_power_by_proposal s with e | hmap
    · exact ⟨e, by rw [error_bind], hydro_power_map_error_kind hh⟩
    · rw [ok_bind]
      obtain ⟨e, he, hke⟩ := total_power_map_error_of_invalid hmem hbad
      exact ⟨e, by rw [he, error_bind], hke⟩
  obtain ⟨e, he, hke⟩ := hhydro
  refine ⟨e, ?_, hke⟩
  unfold calculate_all_rewards
  rw [he, error_bind]

/-- A scenario containing an invalid-token vessel that never voted and is
user-controlled: its power is never computed. -/
def idleInvalidScenario : Scenario :=
  { protocol_config := { protocol_commission_bps := 1000, hydromancer_commission_bps := 500 }
    users :=
      [ { user_id := "U"
          vessels :=
            [ { id := 1, lock_duration_rounds := 1, locked_denom := "NTRN"
                locked_amount := 10, controlled_by := "user"
                voted_proposal_id := none } ] } ]
    proposals :=
      [ { id := 1, bid_duration_months := 1
          tributes := [ { id := 1, denom := "USDC", amount := 100 } ] } ] }

/-- Counterexample to C2 as stated: a scenario with a vessel whose
`locked_denom` is "NTRN" (not in the token table) on which the whole
computation nevertheless succeeds, because the vessel cast no vote and its
power is never computed. -/
theorem validation_totality_counterexample :
    token_multipliers "NTRN" = none ∧
    (∃ u ∈ idleInvalidScenario.users, ∃ v ∈ u.vessels, ¬ validVessel v) ∧
    (calculate_all_rewards idleInvalidScenario).isOk = true := by
  refine ⟨by simp [token_multipliers], by decide, ?_⟩
  simp +decide only [calculate_all_rewards, calculate_protocol_rewards,
    calculate_hydromancer_rewards, calculate_user_direct_rewards,
    calculate_user_delegated_rewards, calculate_hydromancer_voting_power_by_proposal,
    calculate_total_voting_power_by_proposal, buildPowerMap, sumPowersE,
    calculate_voting_power, token_multipliers, duration_multipliers,
    votedVessels, votedVesselsFor, activePids, firstDedup, hydroControlled,
    userControlled, protocolEntriesForProposal, hydroEntriesForProposal,
    directEntriesForProposal, delegatedEntriesForProposal, protocolRate, hydroRate,
    safeDiv, mapME, flatMapME, accumulateDenom, accumulateUser, eligPowerE,
    eligVessels, hydroVesselsOfUser, quantize2, idleInvalidScenario,
    Except.bind, bind, List.flatMap_cons, List.flatMap_nil, List.filterMap_cons,
    List.filterMap_nil, List.filter_cons, List.filter_nil, List.map_cons, List.map_nil,
    List.flatten, List.append_nil, List.nil_append, List.isEmpty, List.sum_cons,
    List.sum_nil, List.mem_cons, List.mem_singleton, List.not_mem_nil, Except.isOk,
    Except.toBool]

/-- Witness for the amended C2: the idle invalid vessel now votes, and the
computation aborts with the invalid-token error. -/
def votingInvalidScenario : Scenario :=
  { protocol_config := { protocol_commission_bps := 1000, hydromancer_commission_bps := 500 }
    users :=
      [ { user_id := "U"
          vessels :=
            [ { id := 1, lock_duration_rounds := 1, locked_denom := "NTRN"
                locked_amount := 10, controlled_by := "user"
                voted_proposal_id := some 1 } ] } ]
    proposals :=
      [ { id := 1, bid_duration_months := 1
          tributes := [ { id := 1, denom := "USDC", amount := 100 } ] } ] }

/-- The invalid voting vessel of `votingInvalidScenario`, tagged with its
owner. -/
def badVotedVessel : VotedVessel :=
  ⟨{ id := 1, lock_duration_rounds := 1, locked_denom := "NTRN"
     locked_amount := 10, controlled_by := "user"
     voted_proposal_id := some 1 }, "U"⟩

/-- Witness for the amended C2 at a concrete scenario whose invalid vessel
voted. -/
theorem abort_on_invalid_voted_vessel_witness :
    badVotedVessel ∈ votedVessels votingInvalidScenario ∧
    ¬ validVessel badVotedVessel.vessel ∧
    (∃ e, calculate_all_rewards votingInvalidScenario = .error e ∧ validationError e) := by
  refine ⟨by decide, by decide, ?_⟩
  exact abort_on_invalid_voted_vessel votingInvalidScenario badVotedVessel
    (by decide) (by decide)

theorem hydroEntriesForProposal_error_kind {s : Scenario} {hmap tmap : ℤ → ℚ}
    {p : Proposal} {e : CalcError}
    (h : hydroEntriesForProposal s hmap tmap p = .error e) : e = .divisionByZero := by
  unfold hydroEntriesForProposal at h
  by_cases hg : ¬ (votedVesselsFor s p.id).isEmpty ∧ 0 < hmap p.id
  · rw [if_pos hg] at h
    rcases hsd : safeDiv (hmap p.id) (tmap p.id) with e' | q <;> rw [hsd] at h
    · rw [error_bind] at h
      injection h with h2
      rw [← h2]
      exact safeDiv_error_kind hsd
    · rw [ok_bind] at h
      cases h
  · rw [if_neg hg] at h
    cases h

theorem directEntriesForProposal_error_kind {s : Scenario} {tmap : ℤ → ℚ}
    {p : Proposal} {e : CalcError} (hv : scenarioValid s)
    (h : directEntriesForProposal s tmap p = .error e) : e = .divisionByZero := by
  unfold directEntriesForProposal at h
  by_cases hg : (votedVesselsFor s p.id).isEmpty
  · rw [if_pos hg] at h
    cases h
  · rw [if_neg hg] at h
    refine flatMapME_error_kind (fun x => x = CalcError.divisionByZero) ?_ h
    intro vv hvv e' he'
    have hval : validVessel vv.vessel :=
      votedVessels_valid hv (mem_votedVesselsFor (userControlled_subset hvv)).1
    rw [calculate_voting_power_ok hval, ok_bind] at he'
    rcases hsd : safeDiv (powerQ vv.vessel) (tmap p.id) with e'' | q <;> rw [hsd] at he'
    · rw [error_bind] at he'
      injection he' with h2
      rw [← h2]
      exact safeDiv_error_kind hsd
    · rw [ok_bind] at he'
      cases he'

theorem delegatedEntriesForProposal_error_kind {s : Scenario} {p : Proposal}
    {e : CalcError} (hv : scenarioValid s)
    (h : delegatedEntriesForProposal s p = .error e) : e = .divisionByZero := by
  unfold delegatedEntriesForProposal at h
  by_cases h1 : (votedVesselsFor s p.id).isEmpty
  · rw [if_pos h1] at h
    cases h
  all_goals rw [if_neg h1] at h
  by_cases h2 : (hydroControlled (votedVesselsFor s p.id)).isEmpty
  · rw [if_pos h2] at h
    cases h
  all_goals rw [if_neg h2] at h
  · have hvalid : ∀ v ∈ (hydroControlled (votedVesselsFor s p.id)).map
        (fun vv => vv.vessel), validVessel v := by
      intro v hv'
      obtain ⟨vv, hvv, rfl⟩ := List.mem_map.mp hv'
      exact votedVessels_valid hv (mem_votedVesselsFor (hydroControlled_subset hvv)).1
    rw [sumPowersE_ok hvalid, ok_bind, total_power_map_ok hv, ok_bind] at h
    rcases hsd : safeDiv (0 + (((hydroControlled (votedVesselsFor s p.id)).map
        fun vv => vv.vessel).map powerQ).sum) (totalPowerQ s p.id) with e' | q <;>
      rw [hsd] at h
    · rw [error_bind] at h
      injection h with h2
      rw [← h2]
      exact safeDiv_error_kind hsd
    · rw [ok_bind] at h
      have heligs : mapME (fun u => do
          let ep ← eligPowerE u p.bid_duration_months
          .ok (u.user_id, ep)) s.users =
          .ok (s.users.map fun u => (u.user_id, eligPowerQ u p.bid_duration_months)) := by
        apply mapME_ok
        intro u hu
        rw [eligPowerE_ok (fun v hv' => hv u hu v hv')]
        rfl
      rw [heligs, ok_bind] at h
      by_cases h3 : 0 < ((((s.users.map fun u =>
          (u.user_id, eligPowerQ u p.bid_duration_months)).filter fun e =>
            decide (0 < e.2)).map fun e => e.2).sum)
      · rw [if_pos h3] at h
        cases h
      · rw [if_neg h3] at h
        cases h

theorem calculate_hydromancer_rewards_error_kind {s : Scenario} {e : CalcError}
    (hv : scenarioValid s) (h : calculate_hydromancer_rewards s = .error e) :
    e = .divisionByZero := by
  unfold calculate_hydromancer_rewards at h
  rw [hydro_power_map_ok hv, ok_bind, total_power_map_ok hv, ok_bind] at h
  rcases hfm : flatMapME (hydroEntriesForProposal s (hydroPowerQ s) (totalPowerQ s))
      s.proposals with e' | entries <;> rw [hfm] at h
  · rw [error_bind] at h
    injection h with h2
    rw [← h2]
    exact flatMapME_error_kind (fun x => x = CalcError.divisionByZero)
      (fun p _ e'' he'' => hydroEntriesForProposal_error_kind he'') hfm
  · rw [ok_bind] at h
    cases h

theorem calculate_user_direct_rewards_error_kind {s : Scenario} {e : CalcError}
    (hv : scenarioValid s) (h : calculate_user_direct_rewards s = .error e) :
    e = .divisionByZero := by
  unfold calculate_user_direct_rewards at h
  rw [total_power_map_ok hv, ok_bind] at h
  rcases hfm : flatMapME (directEntriesForProposal s (totalPowerQ s)) s.proposals with
    e' | entries <;> rw [hfm] at h
  · rw [error_bind] at h
    injection h with h2
    rw [← h2]
    exact flatMapME_error_kind (fun x => x = CalcError.divisionByZero)
      (fun p _ e'' he'' => directEntriesForProposal_error_kind hv he'') hfm
  · rw [ok_bind] at h
    cases h

theorem calculate_user_delegated_rewards_error_kind {s : Scenario} {e : CalcError}
    (hv : scenarioValid s) (h : calculate_user_delegated_rewards s = .error e) :
    e = .divisionByZero := by
  unfold calculate_user_delegated_rewards at h
  rcases hfm : flatMapME (delegatedEntriesForProposal s) s.proposals with
    e' | entries <;> rw [hfm] at h
  · rw [error_bind] at h
    injection h with h2
    rw [← h2]
    exact flatMapME_error_kind (fun x => x = CalcError.divisionByZero)
      (fun p _ e'' he'' => delegatedEntriesForProposal_error_kind hv he'') hfm
  · rw [ok_bind] at h
    cases h

theorem calculate_all_rewards_error_kind {s : Scenario} {e : CalcError}
    (hv : scenarioValid s) (h : calculate_all_rewards s = .error e) :
    e = .divisionByZero := by
  unfold calculate_all_rewards at h
  rcases hh : calculate_hydromancer_rewards s with e' | hm <;> rw [hh] at h
  · rw [error_bind] at h
    injection h with h2
    rw [← h2]
    exact calculate_hydromancer_rewards_error_kind hv hh
  · rw [ok_bind] at h
    rcases hd : calculate_user_direct_rewards s with e' | dm <;> rw [hd] at h
    · rw [error_bind] at h
      injection h with h2
      rw [← h2]
      exact calculate_user_direct_rewards_error_kind hv hd
    · rw [ok_bind] at h
      rcases hg : calculate_user_delegated_rewards s with e' | gm <;> rw [hg] at h
      · rw [error_bind] at h
        injection h with h2
        rw [← h2]
        exact calculate_user_delegated_rewards_error_kind hv hg
      · rw [ok_bind] at h
        cases h

theorem direct_ok_total_ne_zero {s : Scenario} (hv : scenarioValid s)
    {m : String → String → ℚ} (hok : calculate_user_direct_rewards s = .ok m) :
    ∀ p ∈ s.proposals, ∀ vv ∈ userControlled (votedVesselsFor s p.id),
      totalPowerQ s p.id ≠ 0 := by
  intro p hp vv hvv
  unfold calculate_user_direct_rewards at hok
  rw [total_power_map_ok hv, ok_bind] at hok
  rcases hfm : flatMapME (directEntriesForProposal s (totalPowerQ s)) s.proposals with
    e | entries <;> rw [hfm] at hok
  · rw [error_bind] at hok
    cases hok
  · obtain ⟨b, hb, -⟩ := flatMapME_ok_forall hfm p hp
    have hne : ¬ (votedVesselsFor s p.id).isEmpty := by
      simp only [List.isEmpty_iff]
      intro hnil
      rw [userControlled, hnil] at hvv
      simp at hvv
    unfold directEntriesForProposal at hb
    rw [if_neg hne] at hb
    obtain ⟨b', hb', -⟩ := flatMapME_ok_forall hb vv hvv
    have hval : validVessel vv.vessel :=
      votedVessels_valid hv (mem_votedVesselsFor (userControlled_subset hvv)).1
    rw [calculate_voting_power_ok hval, ok_bind] at hb'
    rcases hsd : safeDiv (powerQ vv.vessel) (totalPowerQ s p.id) with e' | q <;>
      rw [hsd] at hb'
    · rw [error_bind] at hb'
      cases hb'
    · exact (safeDiv_eq_ok hsd).1

theorem delegated_ok_total_ne_zero {s : Scenario} (hv : scenarioValid s)
    {m : String → String → ℚ} (hok : calculate_user_delegated_rewards s = .ok m) :
    ∀ p ∈ s.proposals, hydroControlled (votedVesselsFor s p.id) ≠ [] →
      totalPowerQ s p.id ≠ 0 := by
  intro p hp hne
  unfold calculate_user_delegated_rewards at hok
  rcases hfm : flatMapME (delegatedEntriesForProposal s) s.proposals with
    e | entries <;> rw [hfm] at hok
  · rw [error_bind] at hok
    cases hok
  · obtain ⟨b, hb, -⟩ := flatMapME_ok_forall hfm p hp
    have hne1 : ¬ (votedVesselsFor s p.id).isEmpty := by
      simp only [List.isEmpty_iff]
      intro hnil
      rw [hnil] at hne
      exact hne (by simp [hydroControlled])
    unfold delegatedEntriesForProposal at hb
    rw [if_neg hne1, if_neg (by simpa using hne)] at hb
    have hvalid : ∀ v ∈ (hydroControlled (votedVesselsFor s p.id)).map
        (fun vv => vv.vessel), validVessel v := by
      intro v hv'
      obtain ⟨vv, hvv, rfl⟩ := List.mem_map.mp hv'
      exact votedVessels_valid hv (mem_votedVesselsFor (hydroControlled_subset hvv)).1
    rw [sumPowersE_ok hvalid, ok_bind, total_power_map_ok hv, ok_bind] at hb
    rcases hsd : safeDiv (0 + (((hydroControlled (votedVesselsFor s p.id)).map
        fun vv => vv.vessel).map powerQ).sum) (totalPowerQ s p.id) with e' | q <;>
      rw [hsd] at hb
    · rw [error_bind] at hb
      cases hb
    · exact (safeDiv_eq_ok hsd).1

/-- C9 — Unguarded division by zero: a data-model-valid scenario in which
every voting vessel has `locked_amount = 0` but some proposal is active makes
the whole computation fail with the division error raised by the unguarded
share divisions of the direct and delegated paths, instead of returning a
result. -/
theorem unguarded_division_by_zero (s : Scenario) (p : Proposal)
    (hwf : ScenarioWF s)
    (hzero : ∀ vv ∈ votedVessels s, vv.vessel.locked_amount = 0)
    (hp : p ∈ s.proposals)
    (hactive : votedVesselsFor s p.id ≠ []) :
    calculate_all_rewards s = .error .divisionByZero := by
  have htot0 : totalPowerQ s p.id = 0 := by
    unfold totalPowerQ
    apply List.sum_eq_zero
    intro x hx
    obtain ⟨vv, hvv, rfl⟩ := List.mem_map.mp hx
    have h0 : vv.vessel.locked_amount = 0 := hzero vv (mem_votedVesselsFor hvv).1
    simp [powerQ, h0]
  rcases hres : calculate_all_rewards s with e | r
  · rw [calculate_all_rewards_error_kind hwf.valid hres]
  · exfalso
    obtain ⟨vv, hvv⟩ := List.exists_mem_of_ne_nil _ hactive
    have hdirect : ∃ dm, calculate_user_direct_rewards s = .ok dm := by
      unfold calculate_all_rewards at hres
      rcases hh : calculate_hydromancer_rewards s with e | hm <;> rw [hh] at hres
      · rw [error_bind] at hres
        cases hres
      · rw [ok_bind] at hres
        rcases hd : calculate_user_direct_rewards s with e | dm <;> rw [hd] at hres
        · rw [error_bind] at hres
          cases hres
        · exact ⟨dm, rfl⟩
    have hdeleg : ∃ gm, calculate_user_delegated_rewards s = .ok gm := by
      unfold calculate_all_rewards at hres
      rcases hh : calculate_hydromancer_rewards s with e | hm <;> rw [hh] at hres
      · rw [error_bind] at hres
        cases hres
      · rw [ok_bind] at hres
        rcases hd : calculate_user_direct_rewards s with e | dm <;> rw [hd] at hres
        · rw [error_bind] at hres
          cases hres
        · rw [ok_bind] at hres
          rcases hg : calculate_user_delegated_rewards s with e | gm <;> rw [hg] at hres
          · rw [error_bind] at hres
            cases hres
          · exact ⟨gm, rfl⟩
    rcases (hwf.vessel (mem_votedVesselsFor hvv).1).2.2 with hc | hc
    · obtain ⟨dm, hdm⟩ := hdirect
      exact direct_ok_total_ne_zero hwf.valid hdm p hp vv
        (List.mem_filter.mpr ⟨hvv, by simp [hc]⟩) htot0
    · obtain ⟨gm, hgm⟩ := hdeleg
      exact delegated_ok_total_ne_zero hwf.valid hgm p hp
        (List.ne_nil_of_mem (List.mem_filter.mpr ⟨hvv, by simp [hc]⟩)) htot0

/-- A valid scenario whose only voter locked amount 0: the active proposal's
total power is 0. -/
def zeroPowerScenario : Scenario :=
  { protocol_config := { protocol_commission_bps := 1000, hydromancer_commission_bps := 500 }
    users :=
      [ { user_id := "A"
          vessels :=
            [ { id := 1, lock_duration_rounds := 1, locked_denom := "dATOM"
                locked_amount := 0, controlled_by := "user"
                voted_proposal_id := some 1 } ] } ]
    proposals :=
      [ { id := 1, bid_duration_months := 1
          tributes := [ { id := 1, denom := "USDC", amount := 100 } ] } ] }

/-- The proposal of `zeroPowerScenario`. -/
def zeroPowerProposal : Proposal :=
  { id := 1, bid_duration_months := 1
    tributes := [ { id := 1, denom := "USDC", amount := 100 } ] }

/-- Witness for C9 at the zero-amount scenario. -/
theorem unguarded_division_by_zero_witness :
    ScenarioWF zeroPowerScenario ∧
    (∀ vv ∈ votedVessels zeroPowerScenario, vv.vessel.locked_amount = 0) ∧
    zeroPowerProposal ∈ zeroPowerScenario.proposals ∧
    votedVesselsFor zeroPowerScenario zeroPowerProposal.id ≠ [] ∧
    calculate_all_rewards zeroPowerScenario = .error .divisionByZero := by
  refine ⟨by decide, by decide, by decide, by decide, ?_⟩
  exact unguarded_division_by_zero zeroPowerScenario zeroPowerProposal
    (by decide) (by decide) (by decide) (by decide)

set_option maxHeartbeats 2000000 in
/-- C6 — Worked example: on the embedded sample scenario the protocol map is
dATOM ↦ 100.00 and USDC ↦ 50.00, and the hydromancer dATOM reward plus user
"A"'s dATOM reward is 900.00 within 0.01 (the rounded values are 30.15 and
869.85). -/
theorem worked_example :
    protoRewardAt sampleScenario "dATOM" = .ok 100 ∧
    protoRewardAt sampleScenario "USDC" = .ok 50 ∧
    ∃ h u, hydroRewardAt sampleScenario "dATOM" = .ok h ∧
      userRewardAt sampleScenario "A" "dATOM" = .ok u ∧
      |h + u - 900| ≤ 1 / 100 := by
  refine ⟨?_, ?_, 603 / 20, 17397 / 20, ?_, ?_, by norm_num⟩
  all_goals
  · simp +decide only [protoRewardAt, hydroRewardAt, userRewardAt, calculate_all_rewards,
      calculate_protocol_rewards,
      calculate_hydromancer_rewards, calculate_user_direct_rewards,
      calculate_user_delegated_rewards, calculate_hydromancer_voting_power_by_proposal,
      calculate_total_voting_power_by_proposal, buildPowerMap, sumPowersE,
      calculate_voting_power, token_multipliers, duration_multipliers,
      votedVessels, votedVesselsFor, activePids, firstDedup, hydroControlled,
      userControlled, protocolEntriesForProposal, hydroEntriesForProposal,
      directEntriesForProposal, delegatedEntriesForProposal, protocolRate, hydroRate,
      safeDiv, mapME, flatMapME, accumulateDenom, accumulateUser, eligPowerE,
      eligVessels, hydroVesselsOfUser, quantize2, Except.map, sampleScenario,
      Except.bind, bind, List.flatMap_cons, List.flatMap_nil, List.filterMap_cons,
      List.filterMap_nil, List.filter_cons, List.filter_nil, List.map_cons, List.map_nil,
      List.flatten, List.append_nil, List.nil_append, List.isEmpty, List.sum_cons,
      List.sum_nil, List.mem_cons, List.mem_singleton, List.not_mem_nil]
    norm_num [accumulateDenom, accumulateUser, List.filter_cons, List.filter_nil,
      beq_iff_eq]
    try simp +decide
    try norm_num [accumulateDenom, accumulateUser, List.filter_cons, List.filter_nil,
      beq_iff_eq, Int.floor_eq_iff]

theorem protocolRate_nonneg {s : Scenario} (hwf : ScenarioWF s) : 0 ≤ protocolRate s := by
  unfold protocolRate
  have := hwf.2.2.1
  positivity

theorem protocolRate_le_one {s : Scenario} (hwf : ScenarioWF s) : protocolRate s ≤ 1 := by
  unfold protocolRate
  rw [div_le_one (by norm_num)]
  exact_mod_cast hwf.2.2.2.1

theorem hydroRate_nonneg {s : Scenario} (hwf : ScenarioWF s) : 0 ≤ hydroRate s := by
  unfold hydroRate
  have := hwf.2.2.2.2.1
  positivity

theorem hydroRate_le_one {s : Scenario} (hwf : ScenarioWF s) : hydroRate s ≤ 1 := by
  unfold hydroRate
  rw [div_le_one (by norm_num)]
  exact_mod_cast hwf.2.2.2.2.2

theorem eligPowerQ_nonneg {u : User} (h : ∀ v ∈ u.vessels, 0 ≤ v.locked_amount)
    (bid : ℤ) : 0 ≤ eligPowerQ u bid := by
  apply List.sum_nonneg
  intro x hx
  obtain ⟨v, hv, rfl⟩ := List.mem_map.mp hx
  exact powerQ_nonneg (h v (List.mem_filter.mp (List.mem_filter.mp hv).1).1)

theorem delegatedEntriesQ_value_nonneg {s : Scenario} (hwf : ScenarioWF s)
    {q : Proposal} (hq : q ∈ s.proposals) :
    ∀ ent ∈ delegatedEntriesQ s q, 0 ≤ ent.2.2 := by
  intro ent hent
  unfold delegatedEntriesQ at hent
  split_ifs at hent with h1 h2 h3
  · simp at hent
  · simp at hent
  · obtain ⟨t', ht', hmem⟩ := List.mem_flatMap.mp hent
    obtain ⟨e, he, rfl⟩ := List.mem_map.mp hmem
    have hA : 0 ≤ t'.amount := hwf.2.1 q hq t' ht'
    have hpr1 : 0 ≤ 1 - protocolRate s := by
      have := protocolRate_le_one hwf
      linarith
    have hhr1 : 0 ≤ 1 - hydroRate s := by
      have := hydroRate_le_one hwf
      linarith
    have hshare : 0 ≤ hydroShareQ s q.id := by
      unfold hydroShareQ
      exact div_nonneg (hydroPowerQ_nonneg hwf q.id) (totalPowerQ_nonneg hwf q.id)
    have he2 : 0 ≤ e.2 := le_of_lt (by simpa using (List.mem_filter.mp he).2)
    have hsumnn : 0 ≤ ((((s.users.map fun u =>
        (u.user_id, eligPowerQ u q.bid_duration_months)).filter fun e =>
          decide (0 < e.2)).map fun e => e.2).sum) := by
      apply List.sum_nonneg
      intro x hx
      obtain ⟨e', he', rfl⟩ := List.mem_map.mp hx
      exact le_of_lt (by simpa using (List.mem_filter.mp he').2)
    have : 0 ≤ e.2 / ((((s.users.map fun u =>
        (u.user_id, eligPowerQ u q.bid_duration_months)).filter fun e =>
          decide (0 < e.2)).map fun e => e.2).sum) := div_nonneg he2 hsumnn
    positivity
  · simp at hent

theorem le_accumulateUser {entries : List (String × String × ℚ)} {uid d : String}
    {val : ℚ} (hmem : (uid, d, val) ∈ entries)
    (hnn : ∀ e ∈ entries, 0 ≤ e.2.2) :
    val ≤ accumulateUser entries uid d := by
  unfold accumulateUser
  apply List.single_le_sum
  · intro x hx
    obtain ⟨e, he, rfl⟩ := List.mem_map.mp hx
    exact hnn e (List.mem_filter.mp he).1
  · exact List.mem_map.mpr ⟨(uid, d, val), List.mem_filter.mpr ⟨hmem, by simp⟩, rfl⟩

/-- C10 — Delegated eligibility ignores votes: a user owning a
hydromancer-controlled vessel whose duration meets a proposal's threshold
receives a positive share of that proposal's delegated residual even though
none of the user's own vessels voted anywhere, for every proposal where
hydromancer voted with positive power. -/
theorem delegated_eligibility_ignores_votes
    (s : Scenario) (p : Proposal) (u : User) (x : Vessel) (t : Tribute)
    (hwf : ScenarioWF s)
    (hp : p ∈ s.proposals) (hu : u ∈ s.users) (hx : x ∈ u.vessels)
    (hctrl : x.controlled_by = "hydromancer")
    (hdur : p.bid_duration_months ≤ x.lock_duration_rounds)
    (hxpow : 0 < powerQ x)
    (hnovote : ∀ v ∈ u.vessels, v.voted_proposal_id = none)
    (hH : 0 < hydroPowerQ s p.id)
    (ht : t ∈ p.tributes) (hA : 0 < t.amount)
    (hpr : protocolRate s < 1) (hhr : hydroRate s < 1)
    (hT : ∀ q ∈ s.proposals, hydroControlled (votedVesselsFor s q.id) ≠ [] →
      0 < totalPowerQ s q.id) :
    ∃ m, calculate_user_delegated_rewards s = .ok m ∧ 0 < m u.user_id t.denom := by
  refine ⟨_, calculate_user_delegated_rewards_ok hwf hT, ?_⟩
  have hTp : 0 < totalPowerQ s p.id := totalPowerQ_pos hwf hH
  have heligu : 0 < eligPowerQ u p.bid_duration_months := by
    have hxe : x ∈ eligVessels u p.bid_duration_months := by
      apply List.mem_filter.mpr
      refine ⟨List.mem_filter.mpr ⟨hx, by simp [hctrl]⟩, by simpa using hdur⟩
    have hnn : ∀ y ∈ (eligVessels u p.bid_duration_months).map powerQ, 0 ≤ y := by
      intro y hy
      obtain ⟨v, hv, rfl⟩ := List.mem_map.mp hy
      have hvmem : v ∈ u.vessels := (List.mem_filter.mp (List.mem_filter.mp hv).1).1
      exact powerQ_nonneg (hwf.1 u hu v hvmem).2.1
    exact lt_of_lt_of_le hxpow
      (List.single_le_sum hnn _ (List.mem_map.mpr ⟨x, hxe, rfl⟩))
  have hupair : (u.user_id, eligPowerQ u p.bid_duration_months) ∈
      ((s.users.map fun w => (w.user_id, eligPowerQ w p.bid_duration_months)).filter
        fun e => decide (0 < e.2)) := by
    apply List.mem_filter.mpr
    exact ⟨List.mem_map.mpr ⟨u, hu, rfl⟩, by simpa using heligu⟩
  have hsumpos : 0 < ((((s.users.map fun w =>
      (w.user_id, eligPowerQ w p.bid_duration_months)).filter fun e =>
        decide (0 < e.2)).map fun e => e.2).sum) := by
    apply lt_of_lt_of_le heligu
    apply List.single_le_sum
    · intro y hy
      obtain ⟨e, he, rfl⟩ := List.mem_map.mp hy
      exact le_of_lt (by simpa using (List.mem_filter.mp he).2)
    · exact List.mem_map.mpr ⟨_, hupair, rfl⟩
  have hentry : (u.user_id, t.denom,
      t.amount * (1 - protocolRate s) * hydroShareQ s p.id * (1 - hydroRate s) *
        (eligPowerQ u p.bid_duration_months /
          ((((s.users.map fun w =>
            (w.user_id, eligPowerQ w p.bid_duration_months)).filter fun e =>
              decide (0 < e.2)).map fun e => e.2).sum))) ∈ delegatedEntriesQ s p := by
    unfold delegatedEntriesQ
    rw [if_neg (by simpa using votedVesselsFor_ne_nil_of_pos hH),
      if_neg (by simpa using hydroControlled_ne_nil_of_pos hH),
      if_pos hsumpos]
    apply List.mem_flatMap.mpr
    exact ⟨t, ht, List.mem_map.mpr ⟨_, hupair, rfl⟩⟩
  have hvalpos : 0 < t.amount * (1 - protocolRate s) * hydroShareQ s p.id *
      (1 - hydroRate s) *
      (eligPowerQ u p.bid_duration_months /
        ((((s.users.map fun w =>
          (w.user_id, eligPowerQ w p.bid_duration_months)).filter fun e =>
            decide (0 < e.2)).map fun e => e.2).sum)) := by
    have h1 : 0 < 1 - protocolRate s := by linarith
    have h2 : 0 < 1 - hydroRate s := by linarith
    have h3 : 0 < hydroShareQ s p.id := div_pos hH hTp
    have h4 : 0 < eligPowerQ u p.bid_duration_months /
        ((((s.users.map fun w =>
          (w.user_id, eligPowerQ w p.bid_duration_months)).filter fun e =>
            decide (0 < e.2)).map fun e => e.2).sum) := div_pos heligu hsumpos
    positivity
  apply lt_of_lt_of_le hvalpos
  apply le_accumulateUser
  · exact List.mem_flatMap.mpr ⟨p, hp, hentry⟩
  · intro e he
    obtain ⟨q, hq, hqe⟩ := List.mem_flatMap.mp he
    exact delegatedEntriesQ_value_nonneg hwf hq e hqe

/-- Two delegating users: A's hydromancer vessel votes, B's hydromancer
vessel casts no vote at all. -/
def bystanderScenario : Scenario :=
  { protocol_config := { protocol_commission_bps := 1000, hydromancer_commission_bps := 500 }
    users :=
      [ { user_id := "A"
          vessels :=
            [ { id := 1, lock_duration_rounds := 2, locked_denom := "dATOM"
                locked_amount := 100, controlled_by := "hydromancer"
                voted_proposal_id := some 1 } ] }
      , { user_id := "B"
          vessels :=
            [ { id := 2, lock_duration_rounds := 2, locked_denom := "stATOM"
                locked_amount := 10, controlled_by := "hydromancer"
                voted_proposal_id := none } ] } ]
    proposals :=
      [ { id := 1, bid_duration_months := 1
          tributes := [ { id := 1, denom := "USDC", amount := 200 } ] } ] }

/-- The non-voting user B. -/
def bystanderUserB : User :=
  { user_id := "B"
    vessels :=
      [ { id := 2, lock_duration_rounds := 2, locked_denom := "stATOM"
          locked_amount := 10, controlled_by := "hydromancer"
          voted_proposal_id := none } ] }

/-- B's hydromancer-controlled vessel that never voted. -/
def bystanderVesselB : Vessel :=
  { id := 2, lock_duration_rounds := 2, locked_denom := "stATOM"
    locked_amount := 10, controlled_by := "hydromancer"
    voted_proposal_id := none }

/-- The proposal only A's vessel voted for. -/
def bystanderProposal : Proposal :=
  { id := 1, bid_duration_months := 1
    tributes := [ { id := 1, denom := "USDC", amount := 200 } ] }

/-- The tribute of `bystanderProposal`. -/
def bystanderTribute : Tribute := { id := 1, denom := "USDC", amount := 200 }

/-- Witness for C10: user B earns a positive USDC delegated reward although
no vessel of B voted anywhere. -/
theorem delegated_eligibility_ignores_votes_witness :
    ScenarioWF bystanderScenario ∧
    bystanderVesselB.controlled_by = "hydromancer" ∧
    bystanderProposal.bid_duration_months ≤ bystanderVesselB.lock_duration_rounds ∧
    0 < powerQ bystanderVesselB ∧
    (∀ v ∈ bystanderUserB.vessels, v.voted_proposal_id = none) ∧
    0 < hydroPowerQ bystanderScenario 1 ∧
    0 < bystanderTribute.amount ∧
    protocolRate bystanderScenario < 1 ∧
    hydroRate bystanderScenario < 1 ∧
    ∃ m, calculate_user_delegated_rewards bystanderScenario = .ok m ∧
      0 < m "B" "USDC" := by
  have hwf : ScenarioWF bystanderScenario := by decide
  have hxpow : 0 < powerQ bystanderVesselB := by
    simp [powerQ, bystanderVesselB, token_multipliers, duration_multipliers]
    norm_num
  have hH : 0 < hydroPowerQ bystanderScenario 1 := by
    simp [hydroPowerQ, votedVesselsFor, votedVessels, bystanderScenario, hydroControlled,
      powerQ, token_multipliers, duration_multipliers, List.filter_cons]
    norm_num
  have hTp : 0 < totalPowerQ bystanderScenario 1 := by
    simp [totalPowerQ, votedVesselsFor, votedVessels, bystanderScenario,
      powerQ, token_multipliers, duration_multipliers, List.filter_cons]
    norm_num
  have hT : ∀ q ∈ bystanderScenario.proposals,
      hydroControlled (votedVesselsFor bystanderScenario q.id) ≠ [] →
      0 < totalPowerQ bystanderScenario q.id := by
    intro q hq hne
    have : q = bystanderProposal := by
      simpa [bystanderScenario, bystanderProposal] using hq
    rw [this]
    exact hTp
  refine ⟨hwf, rfl, by decide, hxpow, by decide, hH, by norm_num [bystanderTribute],
    by norm_num [protocolRate, bystanderScenario],
    by norm_num [hydroRate, bystanderScenario], ?_⟩
  exact delegated_eligibility_ignores_votes bystanderScenario bystanderProposal
    bystanderUserB bystanderVesselB bystanderTribute hwf (by decide) (by decide)
    (by decide) rfl (by decide) hxpow (by decide) hH (by decide)
    (by norm_num [bystanderTribute])
    (by norm_num [protocolRate, bystanderScenario])
    (by norm_num [hydroRate, bystanderScenario]) hT

/-- A vessel with only its locked amount changed. -/
def updateAmount (x : Vessel) (a : ℚ) : Vessel := { x with locked_amount := a }

/-- A user whose vessel list singles out one vessel x. -/
def midUser (uid : String) (vs₁ : List Vessel) (x : Vessel) (vs₂ : List Vessel) : User :=
  ⟨uid, vs₁ ++ x :: vs₂⟩

/-- A scenario singling out one vessel x of one user, for stating what
happens when exactly that vessel's amount changes. -/
def mkScenario (pc : ProtocolConfig) (us₁ : List User) (uid : String)
    (vs₁ : List Vessel) (x : Vessel) (vs₂ : List Vessel) (us₂ : List User)
    (props : List Proposal) : Scenario :=
  ⟨pc, us₁ ++ midUser uid vs₁ x vs₂ :: us₂, props⟩

theorem totalPowerQ_update (pc : ProtocolConfig) (us₁ : List User) (uid : String)
    (vs₁ : List Vessel) (x : Vessel) (vs₂ : List Vessel) (us₂ : List User)
    (props : List Proposal) (a' : ℚ) (pid : ℤ)
    (hvote : x.voted_proposal_id = some pid) :
    totalPowerQ (mkScenario pc us₁ uid vs₁ (updateAmount x a') vs₂ us₂ props) pid =
      totalPowerQ (mkScenario pc us₁ uid vs₁ x vs₂ us₂ props) pid
        - powerQ x + powerQ (updateAmount x a') := by
  unfold totalPowerQ votedVesselsFor votedVessels mkScenario midUser updateAmount
  simp [List.flatMap_append, List.flatMap_cons, List.filterMap_append, List.filter_append,
    List.map_append, List.sum_append, List.filterMap_cons, hvote, powerQ]
  ring

theorem hydroPowerQ_update (pc : ProtocolConfig) (us₁ : List User) (uid : String)
    (vs₁ : List Vessel) (x : Vessel) (vs₂ : List Vessel) (us₂ : List User)
    (props : List Proposal) (a' : ℚ) (pid : ℤ)
    (hctrl : x.controlled_by = "user") :
    hydroPowerQ (mkScenario pc us₁ uid vs₁ (updateAmount x a') vs₂ us₂ props) pid =
      hydroPowerQ (mkScenario pc us₁ uid vs₁ x vs₂ us₂ props) pid := by
  unfold hydroPowerQ hydroControlled votedVesselsFor votedVessels mkScenario midUser
    updateAmount
  by_cases hvote : x.voted_proposal_id.isSome <;>
    simp [List.flatMap_append, List.flatMap_cons, List.filterMap_append, List.filter_append,
      List.map_append, List.sum_append, List.filterMap_cons, hvote, hctrl]

theorem powerQ_update_lt {x : Vessel} {a' : ℚ} (hvalid : validVessel x)
    (ha : x.locked_amount < a') : powerQ x < powerQ (updateAmount x a') := by
  unfold powerQ updateAmount
  simp only []
  have h1 := token_multipliers_pos hvalid.1
  have h2 := duration_multipliers_pos hvalid.2
  have := mul_pos h1 h2
  calc x.locked_amount * (token_multipliers x.locked_denom).getD 0 *
        (duration_multipliers x.lock_duration_rounds).getD 0
      = x.locked_amount * ((token_multipliers x.locked_denom).getD 0 *
        (duration_multipliers x.lock_duration_rounds).getD 0) := by ring
    _ < a' * ((token_multipliers x.locked_denom).getD 0 *
        (duration_multipliers x.lock_duration_rounds).getD 0) := by
        exact mul_lt_mul_of_pos_right ha this
    _ = a' * (token_multipliers x.locked_denom).getD 0 *
        (duration_multipliers x.lock_duration_rounds).getD 0 := by ring

/-- C5 (amended) — Direct-path monotonicity: raising the locked amount of a
user-controlled vessel that voted for a proposal strictly raises its owner's
per-tribute direct reward, and strictly lowers every other voting vessel's
power share and hydromancer's power share on that proposal — provided the
tribute amount is positive, the protocol rate is below 100%, and the rest of
the proposal's voting power is positive. -/
theorem direct_monotonicity
    (pc : ProtocolConfig) (us₁ : List User) (uid : String)
    (vs₁ : List Vessel) (x : Vessel) (vs₂ : List Vessel) (us₂ : List User)
    (props : List Proposal) (p : Proposal) (t : Tribute) (a' : ℚ)
    (hwf : ScenarioWF (mkScenario pc us₁ uid vs₁ x vs₂ us₂ props))
    (hctrl : x.controlled_by = "user")
    (hvote : x.voted_proposal_id = some p.id)
    (ha : x.locked_amount < a')
    (hrest : 0 < totalPowerQ (mkScenario pc us₁ uid vs₁ x vs₂ us₂ props) p.id - powerQ x)
    (hA : 0 < t.amount)
    (hpr : protocolRate (mkScenario pc us₁ uid vs₁ x vs₂ us₂ props) < 1) :
    directVesselReward (mkScenario pc us₁ uid vs₁ x vs₂ us₂ props) p.id t x <
      directVesselReward (mkScenario pc us₁ uid vs₁ (updateAmount x a') vs₂ us₂ props)
        p.id t (updateAmount x a') ∧
    (∀ vv ∈ votedVesselsFor (mkScenario pc us₁ uid vs₁ x vs₂ us₂ props) p.id,
      vv.vessel ≠ x → 0 < powerQ vv.vessel →
      powerQ vv.vessel /
          totalPowerQ (mkScenario pc us₁ uid vs₁ (updateAmount x a') vs₂ us₂ props) p.id <
        powerQ vv.vessel / totalPowerQ (mkScenario pc us₁ uid vs₁ x vs₂ us₂ props) p.id) ∧
    (0 < hydroPowerQ (mkScenario pc us₁ uid vs₁ x vs₂ us₂ props) p.id →
      hydroPowerQ (mkScenario pc us₁ uid vs₁ (updateAmount x a') vs₂ us₂ props) p.id /
          totalPowerQ (mkScenario pc us₁ uid vs₁ (updateAmount x a') vs₂ us₂ props) p.id <
        hydroPowerQ (mkScenario pc us₁ uid vs₁ x vs₂ us₂ props) p.id /
          totalPowerQ (mkScenario pc us₁ uid vs₁ x vs₂ us₂ props) p.id) := by
  have hxmem : x ∈ (midUser uid vs₁ x vs₂).vessels := by
    unfold midUser
    simp
  have humem : midUser uid vs₁ x vs₂ ∈
      (mkScenario pc us₁ uid vs₁ x vs₂ us₂ props).users := by
    unfold mkScenario
    simp
  have hxwf : vesselWF x := hwf.1 _ humem x hxmem
  have hvx : 0 ≤ powerQ x := powerQ_nonneg hxwf.2.1
  have hdelta : powerQ x < powerQ (updateAmount x a') := powerQ_update_lt hxwf.1 ha
  have hT : 0 < totalPowerQ (mkScenario pc us₁ uid vs₁ x vs₂ us₂ props) p.id := by
    linarith
  have hT' : totalPowerQ (mkScenario pc us₁ uid vs₁ (updateAmount x a') vs₂ us₂ props) p.id =
      totalPowerQ (mkScenario pc us₁ uid vs₁ x vs₂ us₂ props) p.id
        - powerQ x + powerQ (updateAmount x a') :=
    totalPowerQ_update pc us₁ uid vs₁ x vs₂ us₂ props a' p.id hvote
  have hTlt : totalPowerQ (mkScenario pc us₁ uid vs₁ x vs₂ us₂ props) p.id <
      totalPowerQ (mkScenario pc us₁ uid vs₁ (updateAmount x a') vs₂ us₂ props) p.id := by
    rw [hT']
    linarith
  have hT'pos : 0 < totalPowerQ (mkScenario pc us₁ uid vs₁ (updateAmount x a') vs₂ us₂ props) p.id := by
    linarith
  refine ⟨?_, ?_, ?_⟩
  · unfold directVesselReward
    have hprr : protocolRate (mkScenario pc us₁ uid vs₁ (updateAmount x a') vs₂ us₂ props) =
        protocolRate (mkScenario pc us₁ uid vs₁ x vs₂ us₂ props) := rfl
    rw [hprr]
    apply mul_lt_mul_of_pos_left
    · rw [hT']
      rw [div_lt_div_iff hT (by linarith)]
      nlinarith
    · have := protocolRate_le_one hwf
      nlinarith [hA, hpr]
  · intro vv hvv hne hwpos
    exact div_lt_div_of_pos_left hwpos hT hTlt
  · intro hH
    rw [hydroPowerQ_update pc us₁ uid vs₁ x vs₂ us₂ props a' p.id hctrl]
    exact div_lt_div_of_pos_left hH hT hTlt

/-- A family of one-voter scenarios differing only in the voter's locked
amount. -/
def lonelyVoterScenario (amt : ℚ) : Scenario :=
  { protocol_config := { protocol_commission_bps := 1000, hydromancer_commission_bps := 500 }
    users :=
      [ { user_id := "A"
          vessels :=
            [ { id := 1, lock_duration_rounds := 1, locked_denom := "dATOM"
                locked_amount := amt, controlled_by := "user"
                voted_proposal_id := some 1 } ] } ]
    proposals :=
      [ { id := 1, bid_duration_months := 1
          tributes := [ { id := 1, denom := "USDC", amount := 100 } ] } ] }

/-- Counterexample to C5 as stated: doubling the only voter's locked amount
from 10 to 20 leaves that user's reward unchanged at 90.00 — no strict
increase, since the vessel already held the whole proposal's power. -/
theorem monotonicity_counterexample :
    (10 : ℚ) < 20 ∧
    userRewardAt (lonelyVoterScenario 10) "A" "USDC" = .ok 90 ∧
    userRewardAt (lonelyVoterScenario 20) "A" "USDC" = .ok 90 := by
  refine ⟨by norm_num, ?_, ?_⟩ <;>
  · simp +decide only [userRewardAt, calculate_all_rewards, calculate_protocol_rewards,
      calculate_hydromancer_rewards, calculate_user_direct_rewards,
      calculate_user_delegated_rewards, calculate_hydromancer_voting_power_by_proposal,
      calculate_total_voting_power_by_proposal, buildPowerMap, sumPowersE,
      calculate_voting_power, token_multipliers, duration_multipliers,
      votedVessels, votedVesselsFor, activePids, firstDedup, hydroControlled,
      userControlled, protocolEntriesForProposal, hydroEntriesForProposal,
      directEntriesForProposal, delegatedEntriesForProposal, protocolRate, hydroRate,
      safeDiv, mapME, flatMapME, accumulateDenom, accumulateUser, eligPowerE,
      eligVessels, hydroVesselsOfUser, quantize2, Except.map, lonelyVoterScenario,
      Except.bind, bind, List.flatMap_cons, List.flatMap_nil, List.filterMap_cons,
      List.filterMap_nil, List.filter_cons, List.filter_nil, List.map_cons, List.map_nil,
      List.flatten, List.append_nil, List.nil_append, List.isEmpty, List.sum_cons,
      List.sum_nil, List.mem_cons, List.mem_singleton, List.not_mem_nil]
    norm_num [accumulateDenom, accumulateUser, List.filter_cons, List.filter_nil,
      beq_iff_eq]
    try simp +decide
    try norm_num [accumulateDenom, accumulateUser, List.filter_cons, List.filter_nil,
      beq_iff_eq, Int.floor_eq_iff]


/-- The vessel whose amount the C5 witness increases. -/
def c5x : Vessel := ⟨1, 1, "dATOM", 10, "user", some 1⟩

/-- A second direct voter, so the rest of the proposal has positive power. -/
def c5B : User := ⟨"B", [⟨2, 1, "stATOM", 5, "user", some 1⟩]⟩

/-- The proposal of the C5 witness. -/
def c5p : Proposal := ⟨1, 1, [⟨1, "USDC", 100⟩]⟩

/-- The tribute of the C5 witness. -/
def c5t : Tribute := ⟨1, "USDC", 100⟩

/-- Witness for the amended C5: two direct voters; raising the first vessel's
amount from 10 to 20. -/
theorem direct_monotonicity_witness :
    ScenarioWF (mkScenario ⟨1000, 500⟩ [] "A" [] c5x [] [c5B] [c5p]) ∧
    c5x.controlled_by = "user" ∧
    c5x.voted_proposal_id = some c5p.id ∧
    c5x.locked_amount < 20 ∧
    0 < totalPowerQ (mkScenario ⟨1000, 500⟩ [] "A" [] c5x [] [c5B] [c5p]) c5p.id
      - powerQ c5x ∧
    0 < c5t.amount ∧
    protocolRate (mkScenario ⟨1000, 500⟩ [] "A" [] c5x [] [c5B] [c5p]) < 1 ∧
    (directVesselReward (mkScenario ⟨1000, 500⟩ [] "A" [] c5x [] [c5B] [c5p]) c5p.id c5t c5x <
       directVesselReward (mkScenario ⟨1000, 500⟩ [] "A" [] (updateAmount c5x 20) [] [c5B] [c5p])
         c5p.id c5t (updateAmount c5x 20) ∧
     (∀ vv ∈ votedVesselsFor (mkScenario ⟨1000, 500⟩ [] "A" [] c5x [] [c5B] [c5p]) c5p.id,
       vv.vessel ≠ c5x → 0 < powerQ vv.vessel →
       powerQ vv.vessel /
           totalPowerQ (mkScenario ⟨1000, 500⟩ [] "A" [] (updateAmount c5x 20) [] [c5B] [c5p])
             c5p.id <
         powerQ vv.vessel /
           totalPowerQ (mkScenario ⟨1000, 500⟩ [] "A" [] c5x [] [c5B] [c5p]) c5p.id) ∧
     (0 < hydroPowerQ (mkScenario ⟨1000, 500⟩ [] "A" [] c5x [] [c5B] [c5p]) c5p.id →
       hydroPowerQ (mkScenario ⟨1000, 500⟩ [] "A" [] (updateAmount c5x 20) [] [c5B] [c5p])
           c5p.id /
           totalPowerQ (mkScenario ⟨1000, 500⟩ [] "A" [] (updateAmount c5x 20) [] [c5B] [c5p])
             c5p.id <
         hydroPowerQ (mkScenario ⟨1000, 500⟩ [] "A" [] c5x [] [c5B] [c5p]) c5p.id /
           totalPowerQ (mkScenario ⟨1000, 500⟩ [] "A" [] c5x [] [c5B] [c5p]) c5p.id)) := by
  have hwf : ScenarioWF (mkScenario ⟨1000, 500⟩ [] "A" [] c5x [] [c5B] [c5p]) := by decide
  have hrest : 0 < totalPowerQ (mkScenario ⟨1000, 500⟩ [] "A" [] c5x [] [c5B] [c5p]) c5p.id
      - powerQ c5x := by
    simp [mkScenario, midUser, totalPowerQ, votedVesselsFor, votedVessels, c5x, c5B, c5p,
      powerQ, token_multipliers, duration_multipliers, List.filter_cons]
    norm_num
  have hpr : protocolRate (mkScenario ⟨1000, 500⟩ [] "A" [] c5x [] [c5B] [c5p]) < 1 := by
    norm_num [protocolRate, mkScenario]
  refine ⟨hwf, rfl, rfl, by norm_num [c5x], hrest, by norm_num [c5t], hpr, ?_⟩
  exact direct_monotonicity ⟨1000, 500⟩ [] "A" [] c5x [] [c5B] [c5p] c5p c5t 20
    hwf rfl rfl (by norm_num [c5x]) hrest (by norm_num [c5t]) hpr
